import Mathlib

/-!
Verification development for the Bytebase VCS webhook pipeline
(`server/webhook.go`): webhook authentication, push-event file
classification, per-database grouping and ordering, migration-issue
synthesis, and the SQL-review CI result formatters.

Go code is embedded shallowly: pure Go functions become Lean functions on
`String` / `List`; Go maps become association lists or update functions;
fallible Go functions return `Except`.  Calls into external collaborators
(the persistence store, the VCS provider clients, the YAML parser and the
migration-file-path parser from `plugin/db`, which are outside the shown
source) are passed in as explicit parameters of the embedded functions.
Strings are modelled at the character level; the Go code operates on bytes,
which agrees on ASCII data (all constants involved are ASCII).
-/

/-! ## Go string primitives used by the webhook code -/

/-- Embedding of Go `strings.HasPrefix`. -/
def goHasPre (s pre : String) : Bool := pre.data.isPrefixOf s.data

/-- Embedding of Go `strings.TrimPrefix`: drops `pre` from the front of `s`
when present, otherwise returns `s` unchanged. -/
def goTrimPre (s pre : String) : String :=
  if pre.data.isPrefixOf s.data then ⟨s.data.drop pre.data.length⟩ else s

/-- Embedding of Go `strings.HasSuffix`. -/
def goHasSuf (s suf : String) : Bool := suf.data.isSuffixOf s.data

/-- Index of the first occurrence of `needle` in `hay` (Go `strings.Index`),
`none` when `needle` does not occur. -/
def findSub : List Char → List Char → Option Nat
  | _, [] => some 0
  | [], _ :: _ => none
  | c :: cs, needle =>
    if needle.isPrefixOf (c :: cs) then some 0
    else (findSub cs needle).map (· + 1)

/-- Embedding of Go `strings.Index` on strings. -/
def goIndex (s sub : String) : Option Nat := findSub s.data sub.data

/-- Embedding of Go `strings.Contains`. -/
def goContains (s sub : String) : Bool := (goIndex s sub).isSome

/-- Embedding of Go `strings.Replace(s, old, new, 1)`: replaces the first
occurrence of `old` by `new`; for an empty `old`, Go inserts `new` at the
start of `s`. -/
def goReplaceOnce (s old new : String) : String :=
  if old = "" then new ++ s
  else
    match goIndex s old with
    | none => s
    | some i => ⟨s.data.take i ++ new.data ++ s.data.drop (i + old.length)⟩

/-- Embedding of Go `strings.Join` (also `strings.Intercalate` shape). -/
def goJoin (l : List String) (sep : String) : String := String.intercalate sep l

/-- Embedding of Go `strings.EqualFold` restricted to ASCII simple folding
(the environment names compared by the webhook code are ASCII). -/
def goEqualFold (a b : String) : Bool :=
  a.data.map Char.toLower = b.data.map Char.toLower

/-- Decidable equality for `Except` results, used to evaluate embedded
functions at concrete inputs. -/
instance {e a : Type} [DecidableEq e] [DecidableEq a] :
    DecidableEq (Except e a) := fun x y =>
  match x, y with
  | .error u, .error v =>
    if h : u = v then isTrue (by rw [h]) else isFalse (by intro hc; cases hc; exact h rfl)
  | .ok u, .ok v =>
    if h : u = v then isTrue (by rw [h]) else isFalse (by intro hc; cases hc; exact h rfl)
  | .error _, .ok _ => isFalse (by intro hc; cases hc)
  | .ok _, .error _ => isFalse (by intro hc; cases hc)

/-! ## Data model (`api` package types, restricted to the fields the
webhook code reads) -/

/-- Tenant mode of a project (`api.ProjectTenantMode`). -/
inductive TenantMode where
  | disabled
  | tenant
deriving DecidableEq, Repr

/-- Schema change type of a project (`api.ProjectSchemaChangeType`). -/
inductive SchemaChangeType where
  | ddl
  | sdl
deriving DecidableEq, Repr

/-- Project fields read by the webhook pipeline (`api.Project`). -/
structure Project where
  name : String
  tenantMode : TenantMode
  dbNameTemplate : String
  schemaChangeType : SchemaChangeType
deriving DecidableEq, Repr

/-- Repository link fields read by the webhook pipeline (`api.Repository`). -/
structure Repository where
  id : Nat
  projectID : Nat
  project : Project
  baseDirectory : String
  filePathTemplate : String
  schemaPathTemplate : String
deriving DecidableEq, Repr

/-- Change kind of a pushed file (`vcs.FileItemType`). -/
inductive FileItemType where
  | added
  | modified
deriving DecidableEq, Repr

/-- One distinct changed file of a push event (`vcs.DistinctFileItem`). -/
structure DistinctFileItem where
  fileName : String
  commitID : String
  itemType : FileItemType
  isYAML : Bool
deriving DecidableEq, Repr

/-- Migration kind parsed from a file path (`db.MigrationType` from
`plugin/db`, declared outside the shown source; the spec's data model lists
kinds schema update (migrate), data update, baseline, plus the SDL kind used
by the declarative path). -/
inductive MigrationType where
  | baseline
  | migrate
  | migrateSDL
  | data
deriving DecidableEq, Repr

/-- Parsed migration information (`db.MigrationInfo`, fields read by the
webhook code). -/
structure MigrationInfo where
  database : String
  environment : String
  version : String
  type : MigrationType
deriving DecidableEq, Repr

/-- File classification produced by `getFileInfo` (`fileType` in
`server/webhook.go`). -/
inductive FileType where
  | unknownFileType
  | migrationFileType
  | schemaFileType
deriving DecidableEq, Repr

/-- Classified file (`fileInfo` in `server/webhook.go`). -/
structure FileInfo where
  item : DistinctFileItem
  migrationInfo : MigrationInfo
  fType : FileType
  repository : Repository
deriving DecidableEq, Repr

/-- Issue type selected for a migration issue (`api.IssueType` values used
by `createIssueFromMigrationDetailList`). -/
inductive IssueType where
  | databaseSchemaUpdate
  | databaseDataUpdate
deriving DecidableEq, Repr

/-- One migration detail record (`api.MigrationDetail`). -/
structure MigrationDetail where
  migrationType : MigrationType
  databaseID : Nat
  databaseName : String
  statement : String
  schemaVersion : String
deriving DecidableEq, Repr

/-- Environment of an instance (`api.Environment`, name field only). -/
structure Environment where
  name : String
deriving DecidableEq, Repr

/-- Instance fields read by the webhook pipeline (`api.Instance`). -/
structure Instance where
  environmentID : Nat
  environment : Environment
deriving DecidableEq, Repr

/-- Database fields read by the webhook pipeline (`api.Database`). -/
structure Database where
  id : Nat
  name : String
  inst : Instance
deriving DecidableEq, Repr

/-- Issue creation payload assembled by `createIssueFromMigrationDetailList`
(`api.IssueCreate`, fields the webhook code fills). -/
structure IssueCreate where
  projectID : Nat
  name : String
  type : IssueType
  description : String
  creatorID : Nat
deriving DecidableEq, Repr

/-- Activity record assembled for created issues and ignored files
(`api.ActivityCreate`, fields the webhook code fills). -/
structure ActivityCreate where
  containerID : Nat
  isWarning : Bool
  comment : String
deriving DecidableEq, Repr

/-! ## `findProjectDatabases` (webhook.go lines 891-941)

The store lookup `s.store.FindDatabase` is an external collaborator; the
embedded function receives its result (`foundDatabases`, the list of
databases of the project carrying the requested name) as a parameter. -/

/-- Duplicate-environment scan of `findProjectDatabases`: walks the filtered
databases with the `marked` set of seen environment IDs and fails as soon as
an instance's environment ID repeats. -/
def checkDistinctEnvironments (projectID : Nat) (dbName envName : String) :
    List Database → List Nat → Except String Unit
  | [], _ => .ok ()
  | d :: rest, marked =>
    if d.inst.environmentID ∈ marked then
      .error ("project " ++ toString projectID ++ " has multiple databases \"" ++
        dbName ++ "\" for environment \"" ++ envName ++ "\"")
    else
      checkDistinctEnvironments projectID dbName envName rest
        (d.inst.environmentID :: marked)

/-- Embedding of `findProjectDatabases`: validates that the store returned at
least one database with the requested name, filters case-insensitively by
environment name when one is supplied, and rejects any pair of remaining
databases whose instances share an environment. -/
def findProjectDatabases (projectID : Nat) (dbName envName : String)
    (foundDatabases : List Database) : Except String (List Database) :=
  if foundDatabases = [] then
    .error ("project " ++ toString projectID ++ " does not have database \"" ++
      dbName ++ "\"")
  else
    let filteredDatabases :=
      if envName ≠ "" then
        foundDatabases.filter (fun d => goEqualFold d.inst.environment.name envName)
      else foundDatabases
    if envName ≠ "" ∧ filteredDatabases = [] then
      .error ("project " ++ toString projectID ++ " does not have database \"" ++
        dbName ++ "\" for environment \"" ++ envName ++ "\"")
    else
      match checkDistinctEnvironments projectID dbName envName filteredDatabases [] with
      | .error e => .error e
      | .ok _ => .ok filteredDatabases

/-! ## Issue type and name selection (webhook.go lines 774-796, 809-836) -/

/-- Loop of `processFilesInProject` choosing the issue name's verb: starts at
"Change data" and switches to "Alter schema" at the first detail whose kind
is `db.Migrate` (with an early `break`). -/
def migrateTypeOfDetails : List MigrationDetail → String
  | [] => "Change data"
  | d :: rest =>
    if d.migrationType = .migrate then "Alter schema" else migrateTypeOfDetails rest

/-- Loop of `createIssueFromMigrationDetailList` choosing the issue type:
starts at data update and becomes schema update when any detail's kind is
`db.Migrate` or `db.Baseline`. -/
def issueTypeOfDetails (detailList : List MigrationDetail) : IssueType :=
  detailList.foldl
    (fun acc d =>
      if d.migrationType = .migrate ∨ d.migrationType = .baseline then
        .databaseSchemaUpdate
      else acc)
    .databaseDataUpdate

/-- Rendering of `issueNameTemplate` (`"[%s] %s"`). -/
def renderIssueName (databaseName migrateType : String) : String :=
  "[" ++ databaseName ++ "] " ++ migrateType

/-- Embedding of the pure payload assembly of
`createIssueFromMigrationDetailList` (the store/activity calls it then makes
are external). -/
def createIssuePayload (issueName issueDescription : String)
    (creatorID projectID : Nat) (migrationDetailList : List MigrationDetail) :
    IssueCreate :=
  { projectID := projectID
    name := issueName
    type := issueTypeOfDetails migrationDetailList
    description := issueDescription
    creatorID := creatorID }

/-! ## Webhook event-kind dispatch (webhook.go lines 55-62 and 96-106)

The event-kind constants `gitlab.WebhookPush`, `github.WebhookPing` and
`github.WebhookPush` are declared in the `plugin/vcs` packages outside the
shown source.  Modelled from the spec: GitHub delivers the event kind in the
`X-GitHub-Event` header with values `"ping"` and `"push"`; GitLab delivers
the object kind `"push"` in the payload. -/

/-- Outcome of the initial event-kind dispatch of a webhook handler. -/
inductive DispatchOutcome where
  | okNoop
  | badRequest
  | proceed
deriving DecidableEq, Repr

/-- Event-kind dispatch of the GitHub handler: a ping event is answered with
HTTP 200 and no processing; any other non-push kind is answered with HTTP
400; a push event proceeds. -/
def githubEventDispatch (eventType : String) : DispatchOutcome :=
  if eventType = "ping" then .okNoop
  else if eventType ≠ "push" then .badRequest
  else .proceed

/-- Event-kind dispatch of the GitLab handler: any object kind other than
push is answered with HTTP 400; a push event proceeds. -/
def gitlabEventDispatch (objectKind : String) : DispatchOutcome :=
  if objectKind ≠ "push" then .badRequest
  else .proceed

/-! ## Ignored-file activities (webhook.go lines 943-965) -/

/-- Embedding of `getIgnoredFileActivityCreate`: warning-level project
activity recorded for a file skipped for a recoverable reason. -/
def ignoredFileActivity (projectID : Nat) (file : String) (err : String) :
    ActivityCreate :=
  { containerID := projectID
    isWarning := true
    comment := "Ignored file \"" ++ file ++ "\", " ++ err ++ "." }

/-! ## Per-file issue preparation (webhook.go lines 1001-1150)

`readFileContent`, the store's `FindDatabase`, the YAML parser and
`tryUpdateTasksFromModifiedFile`'s task lookup are external collaborators;
their results are supplied in a `FileExternals` bundle. -/

/-- Database entry of a YAML advanced-mode migration file
(`api.MigrationFileYAMLDatabase`). -/
structure MigrationFileYAMLDatabase where
  name : String
deriving DecidableEq, Repr

/-- Parsed YAML advanced-mode migration file (`api.MigrationFileYAML`). -/
structure MigrationFileYAML where
  databases : List MigrationFileYAMLDatabase
  statement : String
deriving DecidableEq, Repr

/-- Results of the external calls made while preparing one file. -/
structure FileExternals where
  /-- Result of `readFileContent` for the file. -/
  content : Except String String
  /-- Result of `store.FindDatabase` for the file's parsed database name. -/
  found : List Database
  /-- Result of `yaml.Unmarshal` on the file content. -/
  yamlParsed : Except String MigrationFileYAML
  /-- Result of `store.FindDatabase` for a database named in a YAML file. -/
  foundByName : String → List Database
  /-- Result of `tryUpdateTasksFromModifiedFile` for a modified file. -/
  tryUpdate : Except String Unit

/-- Loop of the tenant-mode YAML branch of `prepareIssueFromFile`: resolves
every database named in the YAML file and builds one migration detail per
resolved target database; the first resolution failure aborts the file with
an ignored-file activity. -/
def yamlDatabasesDetails (ext : FileExternals) (repo : Repository)
    (fi : FileInfo) (statement : String) :
    List MigrationFileYAMLDatabase → List MigrationDetail →
    List MigrationDetail × List ActivityCreate
  | [], acc => (acc, [])
  | dbEntry :: rest, acc =>
    match findProjectDatabases repo.projectID dbEntry.name ""
        (ext.foundByName dbEntry.name) with
    | .error e =>
      ([], [ignoredFileActivity repo.projectID fi.item.fileName
        ("Failed to find project database \"" ++ dbEntry.name ++ "\": " ++ e)])
    | .ok dbList =>
      yamlDatabasesDetails ext repo fi statement rest
        (acc ++ dbList.map (fun d =>
          { migrationType := fi.migrationInfo.type
            databaseID := d.id
            databaseName := ""
            statement := statement
            schemaVersion := fi.migrationInfo.version }))

/-- Embedding of `prepareIssueFromFile`: returns the migration details and
ignored-file activities derived from one migration-type file. -/
def prepareIssueFromFile (ext : FileExternals) (repo : Repository)
    (fi : FileInfo) : List MigrationDetail × List ActivityCreate :=
  match ext.content with
  | .error e =>
    ([], [ignoredFileActivity repo.projectID fi.item.fileName
      ("Failed to read file content: " ++ e)])
  | .ok content =>
    if repo.project.tenantMode = .tenant then
      if fi.item.isYAML = false then
        ([{ migrationType := fi.migrationInfo.type
            databaseID := 0
            databaseName := fi.migrationInfo.database
            statement := content
            schemaVersion := fi.migrationInfo.version }], [])
      else
        match ext.yamlParsed with
        | .error e =>
          ([], [ignoredFileActivity repo.projectID fi.item.fileName
            ("Failed to parse file content as YAML: " ++ e)])
        | .ok migrationFile =>
          yamlDatabasesDetails ext repo fi migrationFile.statement
            migrationFile.databases []
    else
      match findProjectDatabases repo.projectID fi.migrationInfo.database
          fi.migrationInfo.environment ext.found with
      | .error e =>
        ([], [ignoredFileActivity repo.projectID fi.item.fileName
          ("Failed to find project databases: " ++ e)])
      | .ok databases =>
        if fi.item.itemType = .added then
          (databases.map (fun d =>
            { migrationType := fi.migrationInfo.type
              databaseID := d.id
              databaseName := ""
              statement := content
              schemaVersion := fi.migrationInfo.version }), [])
        else
          match ext.tryUpdate with
          | .error e =>
            ([], [ignoredFileActivity repo.projectID fi.item.fileName
              ("Failed to find project task: " ++ e)])
          | .ok _ => ([], [])

/-- Embedding of `prepareIssueFromSDLFile`: returns the migration details
and ignored-file activities derived from one schema file of an SDL project. -/
def prepareIssueFromSDLFile (ext : FileExternals) (repo : Repository)
    (schemaInfo : MigrationInfo) (file : String) :
    List MigrationDetail × List ActivityCreate :=
  if schemaInfo.database = "" then ([], [])
  else
    match ext.content with
    | .error e =>
      ([], [ignoredFileActivity repo.projectID file
        ("Failed to read file content: " ++ e)])
    | .ok sdl =>
      if repo.project.tenantMode = .tenant then
        ([{ migrationType := .migrateSDL
            databaseID := 0
            databaseName := schemaInfo.database
            statement := sdl
            schemaVersion := "" }], [])
      else
        match findProjectDatabases repo.projectID schemaInfo.database
            schemaInfo.environment ext.found with
        | .error e =>
          ([], [ignoredFileActivity repo.projectID file
            ("Failed to find project databases: " ++ e)])
        | .ok databases =>
          (databases.map (fun d =>
            { migrationType := .migrateSDL
              databaseID := d.id
              databaseName := ""
              statement := sdl
              schemaVersion := "" }), [])

/-! ## `processFilesInProject` (webhook.go lines 729-796)

The embedding assumes every `createIssue` store call succeeds (issue
creation is an external collaborator); the function returns the issue
creation payloads in creation order.  The `echo.HTTPError` of the license
check becomes the `Except` error case. -/

/-- Accumulator of the `processFilesInProject` file loop. -/
structure ProcessAcc where
  migrationDetailList : List MigrationDetail
  activityCreateList : List ActivityCreate
  createdIssueList : List String
  fileNameList : List String
  issues : List IssueCreate
deriving Repr

/-- File loop of `processFilesInProject`: schema files create one issue per
file on an SDL project and are ignored otherwise; migration files accumulate
their details into the single merged issue. -/
def processFilesLoop (creatorID : Nat) (ext : FileInfo → FileExternals)
    (repo : Repository) : List FileInfo → ProcessAcc → ProcessAcc
  | [], acc => acc
  | fi :: rest, acc =>
    if fi.fType = .schemaFileType then
      if repo.project.schemaChangeType = .sdl then
        let pr := prepareIssueFromSDLFile (ext fi) repo fi.migrationInfo
          fi.item.fileName
        let acc := { acc with activityCreateList := acc.activityCreateList ++ pr.2 }
        if pr.1 ≠ [] then
          let databaseName := fi.migrationInfo.database
          let issueName := renderIssueName databaseName "Alter schema"
          let issueDescription := "Apply schema diff by file " ++
            goTrimPre fi.item.fileName (repo.baseDirectory ++ "/")
          let payload := createIssuePayload issueName issueDescription creatorID
            repo.projectID pr.1
          processFilesLoop creatorID ext repo rest
            { acc with
              createdIssueList := acc.createdIssueList ++ [issueName]
              issues := acc.issues ++ [payload] }
        else
          processFilesLoop creatorID ext repo rest acc
      else
        processFilesLoop creatorID ext repo rest acc
    else
      let pr := prepareIssueFromFile (ext fi) repo fi
      let acc := { acc with
        activityCreateList := acc.activityCreateList ++ pr.2
        migrationDetailList := acc.migrationDetailList ++ pr.1 }
      if pr.1 ≠ [] then
        processFilesLoop creatorID ext repo rest
          { acc with fileNameList := acc.fileNameList ++
              [goTrimPre fi.item.fileName (repo.baseDirectory ++ "/")] }
      else
        processFilesLoop creatorID ext repo rest acc

/-- Outcome of `processFilesInProject`. -/
structure ProcessResult where
  createdIssues : List IssueCreate
  message : String
  created : Bool
  activities : List ActivityCreate
deriving Repr

/-- Embedding of `processFilesInProject`. -/
def processFilesInProject (licensedMultiTenancy : Bool) (creatorID : Nat)
    (ext : FileInfo → FileExternals) (repo : Repository)
    (fileInfoList : List FileInfo) : Except String ProcessResult :=
  if repo.project.tenantMode = .tenant ∧ licensedMultiTenancy = false then
    .error "feature multi-tenancy is not enabled"
  else
    let acc := processFilesLoop creatorID ext repo fileInfoList
      { migrationDetailList := []
        activityCreateList := []
        createdIssueList := []
        fileNameList := []
        issues := [] }
    if acc.migrationDetailList = [] then
      .ok { createdIssues := acc.issues
            message := ""
            created := acc.createdIssueList ≠ []
            activities := acc.activityCreateList }
    else
      let migrateType := migrateTypeOfDetails acc.migrationDetailList
      let databaseName :=
        match fileInfoList with
        | [] => ""
        | fi :: _ => fi.migrationInfo.database
      let issueName := renderIssueName databaseName migrateType
      let issueDescription := "By VCS files:\n\n" ++
        goJoin acc.fileNameList "\n" ++ "\n"
      let payload := createIssuePayload issueName issueDescription creatorID
        repo.projectID acc.migrationDetailList
      .ok { createdIssues := acc.issues ++ [payload]
            message := "Created issue \"" ++
              goJoin (acc.createdIssueList ++ [issueName]) "," ++
              "\" from push event"
            created := true
            activities := acc.activityCreateList }

/-! ## Go `path.Clean` and `path.Join` (standard library functions used at
webhook.go line 655) -/

/-- Backtracking step of `path.Clean` for a `..` element: drops characters
from the end of the output (held in reverse) until a `/` has been dropped or
the `dotdot` barrier is reached. -/
def cleanDropSeg (dotdot : Nat) : List Char → List Char
  | [] => []
  | c :: rest =>
    if rest.length > dotdot ∧ c ≠ '/' then cleanDropSeg dotdot rest else rest

/-- Main loop of `path.Clean`: walks the remaining input and maintains the
output buffer in reverse together with the `..`-barrier `dotdot`.  The
leading fuel makes the recursion structural so the kernel can evaluate it;
every iteration consumes at least one input character, so a fuel of the
input length (as passed by `pathClean`) never runs out. -/
def cleanLoop (rooted : Bool) : Nat → List Char → List Char → Nat → List Char
  | 0, _, outRev, _ => outRev
  | _ + 1, [], outRev, _ => outRev
  | fuel + 1, c :: rest, outRev, dotdot =>
    if c = '/' then
      cleanLoop rooted fuel rest outRev dotdot
    else if c = '.' ∧ (rest = [] ∨ rest.head? = some '/') then
      cleanLoop rooted fuel rest outRev dotdot
    else if c = '.' ∧ rest.head? = some '.' ∧
        (rest.tail = [] ∨ rest.tail.head? = some '/') then
      if outRev.length > dotdot then
        cleanLoop rooted fuel rest.tail (cleanDropSeg dotdot outRev) dotdot
      else if rooted = false then
        let outRev1 := if outRev.length > 0 then '/' :: outRev else outRev
        let outRev2 := '.' :: '.' :: outRev1
        cleanLoop rooted fuel rest.tail outRev2 outRev2.length
      else
        cleanLoop rooted fuel rest.tail outRev dotdot
    else
      let outRev1 :=
        if (rooted = true ∧ outRev.length ≠ 1) ∨
            (rooted = false ∧ outRev.length ≠ 0) then '/' :: outRev
        else outRev
      let seg := (c :: rest).takeWhile (· ≠ '/')
      cleanLoop rooted fuel ((c :: rest).dropWhile (· ≠ '/'))
        (seg.reverse ++ outRev1) dotdot

/-- Embedding of Go `path.Clean`. -/
def pathClean (p : String) : String :=
  if p = "" then "."
  else
    let rooted := p.data.head? = some '/'
    let outRev : List Char := if rooted then ['/'] else []
    let dotdot : Nat := if rooted then 1 else 0
    let input := if rooted then p.data.tail else p.data
    let res := cleanLoop rooted input.length input outRev dotdot
    if res = [] then "." else ⟨res.reverse⟩

/-- Embedding of Go `path.Join` on a list of elements: skips leading empty
elements, joins the rest with `/` and cleans the result. -/
def pathJoinList : List String → String
  | [] => ""
  | e :: rest =>
    if e ≠ "" then pathClean (goJoin (e :: rest) "/") else pathJoinList rest

/-- Embedding of Go `path.Join` with two elements, as called by
`getFileInfo`. -/
def pathJoin (a b : String) : String := pathJoinList [a, b]

/-! ## File-path template selection inside `getFileInfo`
(webhook.go lines 654-671) -/

/-- Template and omission policy chosen for one candidate repository. -/
structure TemplateChoice where
  filePathTemplate : String
  allowOmitDatabaseName : Bool
deriving DecidableEq, Repr

/-- Embedding of the template block of `getFileInfo`: joins the base
directory with the file path template; for a tenant-mode project a YAML file
switches the template's first `".sql"` occurrence to `".yml"` and may omit
the database name, and a non-YAML file may omit the database name exactly
when the project's database-name template is empty. -/
def classifierTemplate (repository : Repository)
    (fileItem : DistinctFileItem) : TemplateChoice :=
  let filePathTemplate := pathJoin repository.baseDirectory
    repository.filePathTemplate
  if repository.project.tenantMode = .tenant then
    if fileItem.isYAML then
      { filePathTemplate := goReplaceOnce filePathTemplate ".sql" ".yml"
        allowOmitDatabaseName := true }
    else if repository.project.dbNameTemplate = "" then
      { filePathTemplate := filePathTemplate, allowOmitDatabaseName := true }
    else
      { filePathTemplate := filePathTemplate, allowOmitDatabaseName := false }
  else
    { filePathTemplate := filePathTemplate, allowOmitDatabaseName := false }

/-! ## `getFileInfo` and `groupFileInfoByRepo` (webhook.go lines 602-721)

Modelled from the spec: the parsers `db.ParseMigrationInfo` and
`db.ParseSchemaFileInfo` live in `plugin/db`, outside the shown source; they
match a file path against the (possibly tenant-adjusted) template and return
the derived migration info, no info, or an error, and are supplied here as
parameters `parseMig (fileName) (filePathTemplate) (allowOmitDatabaseName)`
and `parseSchema (baseDirectory) (schemaPathTemplate) (fileName)`. -/

/-- Candidate-repository loop of `getFileInfo`: accumulates the last parsed
info, its file type, and the matched repositories in order; a YAML file
whose parsed migration kind is not data aborts with a hard error. -/
def getFileInfoLoop
    (parseMig : String → String → Bool → Except String (Option MigrationInfo))
    (parseSchema : String → String → String → Except String (Option MigrationInfo))
    (fileItem : DistinctFileItem) :
    List Repository → Option MigrationInfo × FileType × List Repository →
    Except String (Option MigrationInfo × FileType × List Repository)
  | [], st => .ok st
  | repository :: rest, st =>
    if goHasPre fileItem.fileName repository.baseDirectory = false then
      getFileInfoLoop parseMig parseSchema fileItem rest st
    else
      let tc := classifierTemplate repository fileItem
      match parseMig fileItem.fileName tc.filePathTemplate
          tc.allowOmitDatabaseName with
      | .error _ => getFileInfoLoop parseMig parseSchema fileItem rest st
      | .ok (some mi) =>
        if fileItem.isYAML = true ∧ mi.type ≠ .data then
          .error "only DML is allowed for YAML files in a tenant project"
        else
          getFileInfoLoop parseMig parseSchema fileItem rest
            (some mi, .migrationFileType, st.2.2 ++ [repository])
      | .ok none =>
        match parseSchema repository.baseDirectory
            repository.schemaPathTemplate fileItem.fileName with
        | .error _ => getFileInfoLoop parseMig parseSchema fileItem rest st
        | .ok (some si) =>
          getFileInfoLoop parseMig parseSchema fileItem rest
            (some si, .schemaFileType, st.2.2 ++ [repository])
        | .ok none => getFileInfoLoop parseMig parseSchema fileItem rest st

/-- Embedding of `getFileInfo`: classifies one changed file against the
candidate repository list and requires exactly one match. -/
def getFileInfo
    (parseMig : String → String → Bool → Except String (Option MigrationInfo))
    (parseSchema : String → String → String → Except String (Option MigrationInfo))
    (fileItem : DistinctFileItem) (repositoryList : List Repository) :
    Except String (Option MigrationInfo × FileType × Repository) :=
  match getFileInfoLoop parseMig parseSchema fileItem repositoryList
      (none, .unknownFileType, []) with
  | .error e => .error e
  | .ok (migrationInfo, fType, matched) =>
    match matched with
    | [] => .error "file change is not associated with any project"
    | [repository] => .ok (migrationInfo, fType, repository)
    | _ =>
      .error ("file change should be associated with exactly one project but found " ++
        goJoin (matched.map (fun r => r.project.name)) ", ")

/-- Per-file step of `groupFileInfoByRepo`: appends the classified file
under its matched repository's ID, or leaves the map unchanged when the
classification fails (the failure is logged as a warning and the file is
ignored).  A classification that returns no migration info cannot reach a
single-match success (every matched repository records its parse result);
such a result is skipped. -/
def groupStep
    (parseMig : String → String → Bool → Except String (Option MigrationInfo))
    (parseSchema : String → String → String → Except String (Option MigrationInfo))
    (repositoryList : List Repository) (m : Nat → List FileInfo)
    (item : DistinctFileItem) : Nat → List FileInfo :=
  match getFileInfo parseMig parseSchema item repositoryList with
  | .error _ => m
  | .ok (migrationInfo, fType, repository) =>
    match migrationInfo with
    | none => m
    | some mi =>
      fun k =>
        if k = repository.id then
          m k ++ [{ item := item
                    migrationInfo := mi
                    fType := fType
                    repository := repository }]
        else m k

/-- Embedding of `groupFileInfoByRepo`: groups the distinct files of a push
event by their single matched repository, skipping (with a logged warning)
every file whose classification fails.  The Go map is modelled as a function
from repository ID to the accumulated file list. -/
def groupFileInfoByRepo
    (parseMig : String → String → Bool → Except String (Option MigrationInfo))
    (parseSchema : String → String → String → Except String (Option MigrationInfo))
    (distinctFileList : List DistinctFileItem)
    (repositoryList : List Repository) : Nat → List FileInfo :=
  distinctFileList.foldl (groupStep parseMig parseSchema repositoryList)
    (fun _ => [])

/-! ## Go `filepath.Match` (standard library, used by
`isWebhookEventBranch` at webhook.go line 441; on Linux the separator is
`'/'`)

The port follows Go's `scanChunk` / `matchChunk` / `getEsc` structure.
Characters stand for Go runes; the byte-level index arithmetic of the Go
code coincides with character indexing on ASCII patterns and names.  The
loops of the Go code become recursions driven by an explicit fuel so that
they are structural (kernel-evaluable); every iteration of each loop
consumes at least one character of the quantity the passed fuel measures,
so the fuel chosen at each call site never runs out. -/

/-- Scan loop of Go `scanChunk` after leading stars are stripped: copies
characters into the chunk until an unescaped `*` outside a bracket range,
tracking the `inRange` flag. -/
def scanChunkCore : Bool → List Char → List Char × List Char
  | _, [] => ([], [])
  | inRange, c :: rest =>
    if c = '\\' then
      match rest with
      | r :: rest2 =>
        let q := scanChunkCore inRange rest2
        (c :: r :: q.1, q.2)
      | [] =>
        let q := scanChunkCore inRange []
        (c :: q.1, q.2)
    else if c = '[' then
      let q := scanChunkCore true rest
      (c :: q.1, q.2)
    else if c = ']' then
      let q := scanChunkCore false rest
      (c :: q.1, q.2)
    else if c = '*' ∧ inRange = false then
      ([], c :: rest)
    else
      let q := scanChunkCore inRange rest
      (c :: q.1, q.2)

/-- Embedding of Go `scanChunk`: strips leading `*`s (recording whether any
was present) and splits off the next literal chunk of the pattern. -/
def scanChunk (pattern : List Char) : Bool × List Char × List Char :=
  let star := pattern.head? == some '*'
  let q := scanChunkCore false (pattern.dropWhile (· = '*'))
  (star, q.1, q.2)

/-- Embedding of Go `getEsc`: reads one (possibly escaped) range endpoint of
a bracket expression, rejecting `-`, `]` and a dangling escape, and
guaranteeing a nonempty remainder. -/
def getEsc : List Char → Except Unit (Char × List Char)
  | [] => .error ()
  | c :: rest =>
    if c = '-' ∨ c = ']' then .error ()
    else if c = '\\' then
      match rest with
      | [] => .error ()
      | r :: nchunk =>
        if nchunk = [] then .error () else .ok (r, nchunk)
    else
      if rest = [] then .error () else .ok (c, rest)

/-- Range loop of the bracket case of Go `matchChunk`: parses `lo`(-`hi`)
range pairs until the closing `]`, recording whether the rune `r` fell into
any range.  Each iteration consumes at least one chunk character, so the
fuel `chunk.length` passed by `matchChunk` never runs out. -/
def matchRanges (r : Char) : Nat → List Char → Bool → Nat →
    Except Unit (Bool × List Char)
  | 0, _, _, _ => .error ()
  | fuel + 1, chunk, matched, nrange =>
    match chunk with
    | [] => .error ()
    | c0 :: rest =>
      if c0 = ']' ∧ nrange > 0 then
        .ok (matched, rest)
      else
        match getEsc (c0 :: rest) with
        | .error _ => .error ()
        | .ok (lo, chunk1) =>
          if chunk1.head? = some '-' then
            match getEsc chunk1.tail with
            | .error _ => .error ()
            | .ok (hi, chunk2) =>
              matchRanges r fuel chunk2 (matched ∨ (lo ≤ r ∧ r ≤ hi)) (nrange + 1)
          else
            matchRanges r fuel chunk1 (matched ∨ (lo ≤ r ∧ r ≤ lo)) (nrange + 1)

/-- Embedding of Go `matchChunk`: matches a literal chunk against the head
of `s`, carrying Go's `failed` flag (set once `s` is exhausted or a
comparison fails) so that the remaining chunk is still syntax-checked.
Returns the unconsumed rest of `s` together with the success flag.  Each
iteration consumes at least one chunk character, so the fuel
`chunk.length` passed by the wrapper `matchChunk` never runs out. -/
def matchChunkF : Nat → List Char → List Char → Bool →
    Except Unit (List Char × Bool)
  | 0, [], s, failed0 => if failed0 then .ok ([], false) else .ok (s, true)
  | 0, _ :: _, _, _ => .error ()
  | _ + 1, [], s, failed0 => if failed0 then .ok ([], false) else .ok (s, true)
  | fuel + 1, c :: rest, s, failed0 =>
      let failed := if failed0 = false ∧ s = [] then true else failed0
      if c = '[' then
        let r : Char := if failed = false then s.headD (Char.ofNat 0) else Char.ofNat 0
        let s1 := if failed = false then s.tail else s
        let rest1 := if rest.head? = some '^' then rest.tail else rest
        match matchRanges r rest1.length rest1 false 0 with
        | .error _ => .error ()
        | .ok (mtch, chunk2) =>
          matchChunkF fuel chunk2 s1
            (failed ||
              (if rest.head? = some '^' then mtch == true else mtch == false))
      else if c = '?' then
        if failed = false then
          matchChunkF fuel rest s.tail (if s.headD (Char.ofNat 0) = '/' then true else false)
        else
          matchChunkF fuel rest s failed
      else if c = '\\' then
        match rest with
        | [] => .error ()
        | d :: rest2 =>
          if failed = false then
            matchChunkF fuel rest2 s.tail
              (if d ≠ s.headD (Char.ofNat 0) then true else false)
          else
            matchChunkF fuel rest2 s failed
      else
        if failed = false then
          matchChunkF fuel rest s.tail (if c ≠ s.headD (Char.ofNat 0) then true else false)
        else
          matchChunkF fuel rest s failed

/-- Go `matchChunk` at its natural fuel. -/
def matchChunk (chunk s : List Char) (failed : Bool) :
    Except Unit (List Char × Bool) :=
  matchChunkF chunk.length chunk s failed

/-- Syntactic validation of the remaining pattern performed by Go `Match`
before returning an unsuccessful result: every remaining chunk is matched
against the empty name purely for its error side.  Each iteration consumes
at least one pattern character, so the fuel `pattern.length` passed by the
callers never runs out. -/
def syntaxCheckRemaining : Nat → List Char → Except Unit Bool
  | 0, pattern => if pattern = [] then .ok false else .error ()
  | fuel + 1, pattern =>
    match pattern with
    | [] => .ok false
    | p0 :: ps =>
      match matchChunk (scanChunk (p0 :: ps)).2.1 [] false with
      | .error _ => .error ()
      | .ok _ => syntaxCheckRemaining fuel (scanChunk (p0 :: ps)).2.2

mutual

/-- Embedding of the main loop of Go `Match` (`filepath.Match` with
separator `'/'`): consumes one pattern chunk per step, handling a trailing
bare star specially and deferring to `tryStar` when a starred chunk fails at
the current position.  Go's single `scanChunk` call per iteration is written
out as repeated applications of the (pure) `scanChunk`.  The fuel chosen by
the wrapper `pathMatch` bounds the combined loop iterations. -/
def pathMatchGoF : Nat → List Char → List Char → Except Unit Bool
  | 0, _, _ => .error ()
  | fuel + 1, pattern, name =>
    match pattern with
    | [] => .ok name.isEmpty
    | p0 :: ps =>
      if (scanChunk (p0 :: ps)).1 = true ∧ (scanChunk (p0 :: ps)).2.1 = [] then
        .ok (!(name.contains '/'))
      else
        match matchChunk (scanChunk (p0 :: ps)).2.1 name false with
        | .error _ => .error ()
        | .ok (t, ok) =>
          if ok = true ∧ (t = [] ∨ (scanChunk (p0 :: ps)).2.2 ≠ []) then
            pathMatchGoF fuel (scanChunk (p0 :: ps)).2.2 t
          else if (scanChunk (p0 :: ps)).1 = true then
            tryStarF fuel (scanChunk (p0 :: ps)).2.1 (scanChunk (p0 :: ps)).2.2 name
          else
            syntaxCheckRemaining (scanChunk (p0 :: ps)).2.2.length
              (scanChunk (p0 :: ps)).2.2

/-- Star loop of Go `Match`: retries the chunk at every later position of
the name up to the next separator. -/
def tryStarF : Nat → List Char → List Char → List Char → Except Unit Bool
  | 0, _, _, _ => .error ()
  | fuel + 1, chunk, rest, name =>
    match name with
    | [] => syntaxCheckRemaining rest.length rest
    | c :: xs =>
      if c = '/' then syntaxCheckRemaining rest.length rest
      else
        match matchChunk chunk xs false with
        | .error _ => .error ()
        | .ok (t, ok) =>
          if ok = true then
            if rest = [] ∧ t ≠ [] then tryStarF fuel chunk rest xs
            else pathMatchGoF fuel rest t
          else tryStarF fuel chunk rest xs

end

/-- Go `Match`'s combined loop at a fuel that the pattern and name lengths
bound: the pattern strictly shrinks across chunks and the star loop
strictly shrinks the name, so `(pattern + 1) * (name + 2)` iterations can
never be reached. -/
def pathMatchGo (pattern name : List Char) : Except Unit Bool :=
  pathMatchGoF ((pattern.length + 1) * (name.length + 2)) pattern name

/-- Embedding of Go `filepath.Match` on strings (Linux separator `'/'`);
`.error ()` is Go's `ErrBadPattern`. -/
def pathMatch (pattern name : String) : Except Unit Bool :=
  pathMatchGo pattern.data name.data

/-- Embedding of `parseBranchNameFromRefs` (webhook.go lines 471-482):
strips the mandatory `refs/heads/` lead of the ref and rejects a ref without
it or with nothing after it. -/
def parseBranchNameFromRefs (ref : String) : Except String String :=
  if goHasPre ref "refs/heads/" = false ∨ ref.length = "refs/heads/".length then
    .error ("unexpected ref name \"" ++ ref ++ "\" without prefix \"refs/heads/\"")
  else
    .ok ⟨ref.data.drop "refs/heads/".data.length⟩

/-- Embedding of `isWebhookEventBranch` (webhook.go lines 436-450): parses
the branch from the pushed ref and matches it against the branch filter with
`filepath.Match`. -/
def isWebhookEventBranch (pushEventRef branchFilter : String) :
    Except String Bool :=
  match parseBranchNameFromRefs pushEventRef with
  | .error _ => .error ("Invalid ref: " ++ pushEventRef)
  | .ok branch =>
    match pathMatch branchFilter branch with
    | .error _ => .error "failed to match branch filter"
    | .ok ok => .ok ok

/-! ## SHA-256, HMAC and GitHub signature validation (Go `crypto/sha256`,
`crypto/hmac`, `encoding/hex`, `crypto/subtle`; used by
`validateGitHubWebhookSignature256` at webhook.go lines 452-466)

Bytes are natural numbers below 256; 32-bit words are natural numbers below
2^32 with explicit reduction `% 2^32`. -/

/-- Reduction to a 32-bit word. -/
def w32 (x : Nat) : Nat := x % 4294967296

/-- Right rotation of a 32-bit word. -/
def rotr32 (n x : Nat) : Nat := w32 ((x >>> n) ||| (x <<< (32 - n)))

/-- SHA-256 round constants. -/
def sha256K : List Nat :=
  [1116352408, 1899447441, 3049323471, 3921009573, 961987163,
   1508970993, 2453635748, 2870763221, 3624381080, 310598401,
   607225278, 1426881987, 1925078388, 2162078206, 2614888103,
   3248222580, 3835390401, 4022224774, 264347078, 604807628,
   770255983, 1249150122, 1555081692, 1996064986, 2554220882,
   2821834349, 2952996808, 3210313671, 3336571891, 3584528711,
   113926993, 338241895, 666307205, 773529912, 1294757372,
   1396182291, 1695183700, 1986661051, 2177026350, 2456956037,
   2730485921, 2820302411, 3259730800, 3345764771, 3516065817,
   3600352804, 4094571909, 275423344, 430227734, 506948616,
   659060556, 883997877, 958139571, 1322822218, 1537002063,
   1747873779, 1955562222, 2024104815, 2227730452, 2361852424,
   2428436474, 2756734187, 3204031479, 3329325298]

/-- SHA-256 initial hash value. -/
def sha256H0 : List Nat :=
  [1779033703, 3144134277, 1013904242, 2773480762,
   1359893119, 2600822924, 528734635, 1541459225]

/-- Big-endian split of a 64-bit length into 8 bytes. -/
def be64 (n : Nat) : List Nat :=
  [(n >>> 56) % 256, (n >>> 48) % 256, (n >>> 40) % 256, (n >>> 32) % 256,
   (n >>> 24) % 256, (n >>> 16) % 256, (n >>> 8) % 256, n % 256]

/-- Big-endian split of a 32-bit word into 4 bytes. -/
def be32 (n : Nat) : List Nat :=
  [(n >>> 24) % 256, (n >>> 16) % 256, (n >>> 8) % 256, n % 256]

/-- SHA-256 padding: trailing `0x80`, zero fill to 56 mod 64, and the
big-endian bit length. -/
def sha256Pad (msg : List Nat) : List Nat :=
  let padLen := (119 - (msg.length % 64)) % 64
  msg ++ [0x80] ++ List.replicate padLen 0 ++ be64 (8 * msg.length)

/-- Splits a list into chunks of the given size (structural recursion so
that the kernel can evaluate digests; chunks are accumulated in reverse). -/
def chunksAux (n : Nat) : List Nat → List Nat → List (List Nat)
  | [], acc => if acc = [] then [] else [acc.reverse]
  | b :: rest, acc =>
    if acc.length + 1 = n then (b :: acc).reverse :: chunksAux n rest []
    else chunksAux n rest (b :: acc)

/-- Splits a list into chunks of the given positive size. -/
def listChunks (n : Nat) (l : List Nat) : List (List Nat) := chunksAux n l []

/-- Four big-endian bytes to a 32-bit word. -/
def wordOfBytes : List Nat → Nat
  | b0 :: b1 :: b2 :: b3 :: _ => ((b0 <<< 24) ||| (b1 <<< 16) ||| (b2 <<< 8) ||| b3)
  | _ => 0

/-- SHA-256 message schedule extension step: pushes the next `k` scheduled
words, reading indices relative to the current size. -/
def sha256Extend (w : Array Nat) : Nat → Array Nat
  | 0 => w
  | k + 1 =>
    let t := w.size
    let w15 := w.getD (t - 15) 0
    let w2 := w.getD (t - 2) 0
    let s0 := (rotr32 7 w15) ^^^ (rotr32 18 w15) ^^^ (w15 >>> 3)
    let s1 := (rotr32 17 w2) ^^^ (rotr32 19 w2) ^^^ (w2 >>> 10)
    sha256Extend (w.push (w32 (w.getD (t - 16) 0 + s0 + w.getD (t - 7) 0 + s1))) k

/-- SHA-256 message schedule: extends the 16 block words to 64. -/
def sha256Schedule (w : Array Nat) : Array Nat := sha256Extend w 48

/-- One SHA-256 round. -/
def sha256Round (st : List Nat) (kt wt : Nat) : List Nat :=
  match st with
  | [a, b, c, d, e, f, g, h] =>
    let s1 := (rotr32 6 e) ^^^ (rotr32 11 e) ^^^ (rotr32 25 e)
    let ch := (e &&& f) ^^^ ((4294967295 - e) &&& g)
    let t1 := w32 (h + s1 + ch + kt + wt)
    let s0 := (rotr32 2 a) ^^^ (rotr32 13 a) ^^^ (rotr32 22 a)
    let mj := (a &&& b) ^^^ (a &&& c) ^^^ (b &&& c)
    let t2 := w32 (s0 + mj)
    [w32 (t1 + t2), a, b, c, w32 (d + t1), e, f, g]
  | other => other

/-- SHA-256 compression of one 64-byte block into the running hash. -/
def sha256Compress (h : List Nat) (block : List Nat) : List Nat :=
  let w0 := ((listChunks 4 block).map wordOfBytes).toArray
  let w := sha256Schedule w0
  let st := (sha256K.zip w.toList).foldl
    (fun st p => sha256Round st p.1 p.2) h
  (h.zip st).map (fun p => w32 (p.1 + p.2))

/-- SHA-256 digest of a byte list. -/
def sha256 (msg : List Nat) : List Nat :=
  ((listChunks 64 (sha256Pad msg)).foldl sha256Compress sha256H0).flatMap be32

/-- HMAC-SHA256 (Go `hmac.New(sha256.New, key)` followed by `Write`/`Sum`):
an over-long key is first hashed, the key is zero-padded to the 64-byte
block size, and the digest is `H((k xor opad) ++ H((k xor ipad) ++ msg))`. -/
def hmacSHA256 (key msg : List Nat) : List Nat :=
  let key1 := if key.length > 64 then sha256 key else key
  let key2 := key1 ++ List.replicate (64 - key1.length) 0
  let ipad := key2.map (fun b => b ^^^ 0x36)
  let opad := key2.map (fun b => b ^^^ 0x5c)
  sha256 (opad ++ sha256 (ipad ++ msg))

/-- One lowercase hexadecimal digit (Go `encoding/hex` digit table; the
argument is a nibble below 16 at every call site). -/
def hexDigit (n : Nat) : Char :=
  match n with
  | 0 => '0' | 1 => '1' | 2 => '2' | 3 => '3'
  | 4 => '4' | 5 => '5' | 6 => '6' | 7 => '7'
  | 8 => '8' | 9 => '9' | 10 => 'a' | 11 => 'b'
  | 12 => 'c' | 13 => 'd' | 14 => 'e' | 15 => 'f'
  | _ => '0'

/-- Embedding of Go `hex.EncodeToString`. -/
def hexEncode (bytes : List Nat) : String :=
  ⟨bytes.flatMap (fun b => [hexDigit ((b >>> 4) % 16), hexDigit (b % 16)])⟩

/-- UTF-8 encoding of one character. -/
def utf8Bytes (c : Char) : List Nat :=
  let n := c.toNat
  if n < 0x80 then [n]
  else if n < 0x800 then
    [0xc0 ||| (n >>> 6), 0x80 ||| (n &&& 0x3f)]
  else if n < 0x10000 then
    [0xe0 ||| (n >>> 12), 0x80 ||| ((n >>> 6) &&& 0x3f), 0x80 ||| (n &&& 0x3f)]
  else
    [0xf0 ||| (n >>> 18), 0x80 ||| ((n >>> 12) &&& 0x3f),
     0x80 ||| ((n >>> 6) &&& 0x3f), 0x80 ||| (n &&& 0x3f)]

/-- UTF-8 bytes of a Go string (Go strings are UTF-8 byte sequences). -/
def strBytes (s : String) : List Nat := s.data.flatMap utf8Bytes

/-- Embedding of `validateGitHubWebhookSignature256` (webhook.go lines
452-466): strips an optional `sha256=` lead from the signature header and
compares it against the lowercase hex HMAC-SHA256 digest of the body under
the key.  Go's `subtle.ConstantTimeCompare(x, y) == 1` holds exactly when
the byte strings are equal, which is string equality here; the `error`
result of the Go function is always `nil` (a hash `Write` never fails), so
the embedding returns the boolean alone. -/
def validateGitHubWebhookSignature256 (signature key : String)
    (body : List Nat) : Bool :=
  let sig := goTrimPre signature "sha256="
  sig == hexEncode (hmacSHA256 (strBytes key) body)

/-! ## SQL advice and the CI result formatters (webhook.go lines 37-45,
1197-1322) -/

/-- One SQL review finding (`advisor.Advice`; the status is the string type
`advisor.Status` with values `"SUCCESS"`, `"WARN"` and `"ERROR"`, and the
code is the numeric `advisor.Code`). -/
structure Advice where
  status : String
  code : Int
  title : String
  content : String
  line : Int
deriving DecidableEq, Repr

/-- Status constant `advisor.Success`. -/
def advisorSuccess : String := "SUCCESS"

/-- Status constant `advisor.Warn`. -/
def advisorWarn : String := "WARN"

/-- Status constant `advisor.Error`. -/
def advisorError : String := "ERROR"

/-- Result payload of the SQL review endpoint (`api.VCSSQLReviewResult`). -/
structure VCSSQLReviewResult where
  status : String
  content : List String
deriving DecidableEq, Repr

/-- The `sqlReviewDocs` constant of webhook.go. -/
def sqlReviewDocs : String :=
  "https://www.bytebase.com/docs/reference/error-code/advisor"

/-- Fuel-driven core of Go `strings.ReplaceAll` (structural recursion so the
kernel can evaluate it; the fuel is the input length, which suffices because
every step consumes at least one character). -/
def replaceAllFuel (old new : List Char) : Nat → List Char → List Char
  | _, [] => []
  | 0, l => l
  | fuel + 1, c :: rest =>
    if old ≠ [] ∧ old.isPrefixOf (c :: rest) then
      new ++ replaceAllFuel old new fuel ((c :: rest).drop old.length)
    else
      c :: replaceAllFuel old new fuel rest

/-- Embedding of Go `strings.ReplaceAll` for a non-empty pattern. -/
def goReplaceAll (s old new : String) : String :=
  if old = "" then s
  else ⟨replaceAllFuel old.data new.data s.data.length s.data⟩

/-- Embedding of Go `sort.Strings` as an insertion sort: `sort.Strings`
produces the ascending reordering of the list (the keys sorted here are
distinct map keys, for which the sorted reordering is unique). -/
def sortStrings (l : List String) : List String :=
  l.insertionSort (· ≤ ·)

/-- Map lookup `adviceMap[filePath]` on the association-list model of the
Go map (zero value `[]` when the key is absent). -/
def lookupAdvice (m : List (String × List Advice)) (f : String) :
    List Advice :=
  (((m.find? (fun p => p.1 == f)).map Prod.snd)).getD []

/-- Key set of the association-list model of the advice map. -/
def adviceKeys (m : List (String × List Advice)) : List String :=
  m.map Prod.fst

/-- Per-file advice loop of `convertSQLAdviceToGitLabCIResult`: accumulates
junit test cases for every advice with a non-zero code and updates the
aggregate status. -/
def gitlabFileFold (filePath : String) (adviceList : List Advice)
    (status0 : String) : List String × String :=
  adviceList.foldl
    (fun (acc : List String × String) advice =>
      if advice.code = 0 then acc
      else
        let line := if advice.line ≤ 0 then 1 else advice.line
        let status1 :=
          if advice.status = advisorError then advice.status
          else if advice.status = advisorWarn ∧ acc.2 ≠ advisorError then
            advice.status
          else acc.2
        let content := "Error: " ++ advice.content ++
          ".\nYou can check the docs at " ++ sqlReviewDocs ++ "#" ++
          toString advice.code
        let testcase := "<testcase name=\"" ++ advice.title ++
          "\" classname=\"" ++ filePath ++ "\" file=\"" ++ filePath ++
          "#L" ++ toString line ++ "\">\n<failure>\n" ++ content ++
          "\n</failure>\n</testcase>"
        (acc.1 ++ [testcase], status1))
    ([], status0)

/-- Embedding of `convertSQLAdviceToGitLabCIResult`: renders the advice map
as a junit XML report, iterating the files in sorted order. -/
def convertSQLAdviceToGitLabCIResult
    (adviceMap : List (String × List Advice)) : VCSSQLReviewResult :=
  let fileList := sortStrings (adviceKeys adviceMap)
  let res := fileList.foldl
    (fun (acc : List String × String) filePath =>
      let pr := gitlabFileFold filePath (lookupAdvice adviceMap filePath) acc.2
      (if pr.1.length > 0 then
        acc.1 ++ ["<testsuite name=\"" ++ filePath ++ "\">\n" ++
          goJoin pr.1 "\n" ++ "\n</testsuite>"]
      else acc.1, pr.2))
    ([], advisorSuccess)
  { status := res.2
    content := ["<?xml version=\"1.0\" encoding=\"UTF-8\"?>\n<testsuites name=\"SQL Review\">\n" ++
      goJoin res.1 "\n" ++ "\n</testsuites>"] }

/-- Per-file advice loop of `convertSQLAdiceToGitHubActionResult`:
accumulates workflow-command messages for every advice with a non-zero code
and a non-success status, and updates the aggregate status. -/
def githubFileFold (filePath : String) (adviceList : List Advice)
    (acc0 : List String × String) : List String × String :=
  adviceList.foldl
    (fun (acc : List String × String) advice =>
      if advice.code = 0 ∨ advice.status = advisorSuccess then acc
      else
        let line := if advice.line ≤ 0 then 1 else advice.line
        let prefixStatus : String × String :=
          if advice.status = advisorError then ("error", advice.status)
          else
            ("warning", if acc.2 ≠ advisorError then advice.status else acc.2)
        let msg := "::" ++ prefixStatus.1 ++ " file=" ++ filePath ++
          ",line=" ++ toString line ++ ",col=1,endColumn=2,title=" ++
          advice.title ++ " (" ++ toString advice.code ++ ")::" ++
          advice.content ++ "\nDoc: " ++ sqlReviewDocs ++ "#" ++
          toString advice.code
        (acc.1 ++ [goReplaceAll msg "\n" "%0A"], prefixStatus.2))
    acc0

/-- Embedding of `convertSQLAdiceToGitHubActionResult` (name as in the
source): renders the advice map as GitHub action workflow commands,
iterating the files in sorted order. -/
def convertSQLAdiceToGitHubActionResult
    (adviceMap : List (String × List Advice)) : VCSSQLReviewResult :=
  let fileList := sortStrings (adviceKeys adviceMap)
  let res := fileList.foldl
    (fun (acc : List String × String) filePath =>
      githubFileFold filePath (lookupAdvice adviceMap filePath) acc)
    ([], advisorSuccess)
  { status := res.2
    content := res.1 }

/-! ## SQL review request handling (webhook.go lines 233-276)

The per-file work (`sqlAdviceForFile`, dispatched one goroutine per file)
calls the store and the VCS provider; a file's outcome is supplied as
`some adviceList` (success, written into the advice map) or `none` (failure,
logged and skipped).  The collected map is rendered per the repository's VCS
type and the endpoint always answers HTTP 200 with the rendered report. -/

/-- Go-map assignment `m[k] = v` on the association-list model. -/
def mapAssign (m : List (String × List Advice)) (k : String)
    (v : List Advice) : List (String × List Advice) :=
  if (m.find? (fun p => p.1 == k)).isSome then
    m.map (fun p => if p.1 == k then (k, v) else p)
  else m ++ [(k, v)]

/-- Collection loop of the SQL review handler: failed files are skipped,
successful files are written into the advice map under their file name. -/
def collectSQLAdvice (results : List (String × Option (List Advice))) :
    List (String × List Advice) :=
  results.foldl
    (fun m r =>
      match r.2 with
      | none => m
      | some adviceList => mapAssign m r.1 adviceList)
    []

/-- VCS provider type of a repository (`vcs.Type` values the handler
dispatches on). -/
inductive VCSType where
  | gitHubCom
  | gitLabSelfHost
deriving DecidableEq, Repr

/-- Response phase of the SQL review endpoint: collects the per-file
outcomes and always returns HTTP 200 with the provider-specific report. -/
def sqlReviewResponse (vcsType : VCSType)
    (results : List (String × Option (List Advice))) :
    Nat × VCSSQLReviewResult :=
  let advice := collectSQLAdvice results
  (200,
    match vcsType with
    | .gitHubCom => convertSQLAdiceToGitHubActionResult advice
    | .gitLabSelfHost => convertSQLAdviceToGitLabCIResult advice)

/-! ## Derived definitions used to state the claims -/

/-- Classification state of one file against the candidate repositories: the
result of `getFileInfo`'s loop from the initial state. -/
def classifyState
    (parseMig : String → String → Bool → Except String (Option MigrationInfo))
    (parseSchema : String → String → String → Except String (Option MigrationInfo))
    (fileItem : DistinctFileItem) (repositoryList : List Repository) :
    Except String (Option MigrationInfo × FileType × List Repository) :=
  getFileInfoLoop parseMig parseSchema fileItem repositoryList
    (none, .unknownFileType, [])

/-- Most severe status among the advices carrying a non-zero code, in the
severity order success < warn < error. -/
def maxSeverity (advices : List Advice) : String :=
  if advices.any (fun a => decide (a.code ≠ 0 ∧ a.status = advisorError)) then
    advisorError
  else if advices.any (fun a => decide (a.code ≠ 0 ∧ a.status = advisorWarn)) then
    advisorWarn
  else advisorSuccess

/-- All advices of the map in the order both formatters visit them: files in
sorted order, advices in file order. -/
def allAdvicesSorted (adviceMap : List (String × List Advice)) :
    List Advice :=
  (sortStrings (adviceKeys adviceMap)).flatMap (lookupAdvice adviceMap)

/-- The junit testsuite the GitLab formatter emits for one file, when the
file has at least one advice with a non-zero code. -/
def gitlabSuiteFor (adviceMap : List (String × List Advice))
    (filePath : String) : Option String :=
  let pr := gitlabFileFold filePath (lookupAdvice adviceMap filePath)
    advisorSuccess
  if pr.1.length > 0 then
    some ("<testsuite name=\"" ++ filePath ++ "\">\n" ++ goJoin pr.1 "\n" ++
      "\n</testsuite>")
  else none

/-- The workflow-command messages the GitHub formatter emits for one file. -/
def githubMessagesFor (adviceMap : List (String × List Advice))
    (filePath : String) : List String :=
  (githubFileFold filePath (lookupAdvice adviceMap filePath)
    ([], advisorSuccess)).1

/-! ## Concrete fixtures used by witnesses and counterexamples -/

/-- Non-SDL, non-tenant project fixture. -/
def projDDL : Project :=
  { name := "proj-one"
    tenantMode := .disabled
    dbNameTemplate := ""
    schemaChangeType := .ddl }

/-- Repository fixture of the non-SDL project (template placeholders are
elided from the fixture strings; the parsers are parameters, so the template
text never matters to the theorems). -/
def repoShop : Repository :=
  { id := 1
    projectID := 10
    project := projDDL
    baseDirectory := "bb"
    filePathTemplate := "dbname__version.sql"
    schemaPathTemplate := "dbname__LATEST.sql" }

/-- Database fixture in environment 1. -/
def dbShopDev : Database :=
  { id := 100
    name := "shop"
    inst := { environmentID := 1, environment := { name := "dev" } } }

/-- Database fixture sharing environment 1 with `dbShopDev`. -/
def dbShopDev2 : Database :=
  { id := 101
    name := "shop"
    inst := { environmentID := 1, environment := { name := "dev" } } }

/-- Schema-kind classified file fixture for database `shop`. -/
def schemaFI : FileInfo :=
  { item := { fileName := "bb/shop__LATEST.sql"
              commitID := "c1"
              itemType := .added
              isYAML := false }
    migrationInfo := { database := "shop"
                       environment := ""
                       version := ""
                       type := .migrateSDL }
    fType := .schemaFileType
    repository := repoShop }

/-- Migrate-kind classified file fixture for database `shop`. -/
def migrateFI : FileInfo :=
  { item := { fileName := "bb/shop__v1.sql"
              commitID := "c1"
              itemType := .added
              isYAML := false }
    migrationInfo := { database := "shop"
                       environment := ""
                       version := "v1"
                       type := .migrate }
    fType := .migrationFileType
    repository := repoShop }

/-- Baseline-kind classified file fixture for database `shop`. -/
def baselineFI : FileInfo :=
  { item := { fileName := "bb/shop__v1.sql"
              commitID := "c1"
              itemType := .added
              isYAML := false }
    migrationInfo := { database := "shop"
                       environment := ""
                       version := "v1"
                       type := .baseline }
    fType := .migrationFileType
    repository := repoShop }

/-- External-call fixture: file reads succeed and the store resolves the
single database `dbShopDev`. -/
def extOK : FileInfo → FileExternals := fun _ =>
  { content := .ok "ALTER TABLE t ADD COLUMN c INT;"
    found := [dbShopDev]
    yamlParsed := .error "not yaml"
    foundByName := fun _ => []
    tryUpdate := .ok () }

/-- Second repository fixture sharing the base directory with `repoShop`
but owned by another project. -/
def repoShop2 : Repository :=
  { id := 2
    projectID := 11
    project := { name := "proj-two"
                 tenantMode := .disabled
                 dbNameTemplate := ""
                 schemaChangeType := .ddl }
    baseDirectory := "bb"
    filePathTemplate := "dbname__version.sql"
    schemaPathTemplate := "dbname__LATEST.sql" }

/-- Flip of one body byte (xor of the high bit). -/
def flipByte (l : List Nat) (i : Nat) : List Nat :=
  l.set i ((l.getD i 0) ^^^ 0x80)

/-! # Theorems -/

/-! ## C9 — event-kind dispatch -/

/-- C9 counterexample: a GitHub event of the non-push, non-ping kind
`issues` is answered with HTTP 400 Bad Request, not with a no-op 200, and a
GitLab object kind other than push (for example a hypothetical ping) is also
answered with 400; the claim that every ping or non-push kind yields a no-op
200 on both provider endpoints is therefore false. -/
theorem c9_counterexample :
    githubEventDispatch "issues" = .badRequest ∧
    gitlabEventDispatch "ping" = .badRequest ∧
    DispatchOutcome.badRequest ≠ DispatchOutcome.okNoop := by decide

/-- C9 (amended): on the GitHub endpoint a ping event is answered with a
no-op HTTP 200 and every other non-push kind with HTTP 400; on the GitLab
endpoint every non-push object kind is answered with HTTP 400 (there is no
ping carve-out); push events proceed on both. -/
theorem c9_dispatch :
    githubEventDispatch "ping" = .okNoop ∧
    githubEventDispatch "push" = .proceed ∧
    gitlabEventDispatch "push" = .proceed ∧
    (∀ t : String, t ≠ "ping" → t ≠ "push" → githubEventDispatch t = .badRequest) ∧
    (∀ k : String, k ≠ "push" → gitlabEventDispatch k = .badRequest) := by
  refine ⟨by decide, by decide, by decide, ?_, ?_⟩
  · intro t h1 h2
    simp [githubEventDispatch, h1, h2]
  · intro k h
    simp [gitlabEventDispatch, h]

/-- C9 witness: the amended dispatch facts at the concrete kinds `issues`
and `tag_push`. -/
theorem c9_witness :
    githubEventDispatch "issues" = .badRequest ∧
    gitlabEventDispatch "tag_push" = .badRequest :=
  ⟨c9_dispatch.2.2.2.1 "issues" (by decide) (by decide),
   c9_dispatch.2.2.2.2 "tag_push" (by decide)⟩

/-! ## C10 — `findProjectDatabases` -/

/-- Helper: a successful duplicate-environment scan implies the scanned
databases have pairwise distinct environment IDs, none of them in the
initial `marked` set. -/
theorem checkDistinct_ok_pairwise (pid : Nat) (db env : String) :
    ∀ (l : List Database) (marked : List Nat),
      checkDistinctEnvironments pid db env l marked = .ok () →
      l.Pairwise (fun a b => a.inst.environmentID ≠ b.inst.environmentID) ∧
      ∀ d ∈ l, d.inst.environmentID ∉ marked := by
  intro l
  induction l with
  | nil => intro marked _; exact ⟨List.Pairwise.nil, by simp⟩
  | cons d rest ih =>
    intro marked h
    unfold checkDistinctEnvironments at h
    by_cases hm : d.inst.environmentID ∈ marked
    · simp [hm] at h
    · simp only [hm, if_false] at h
      obtain ⟨hp, hnm⟩ := ih _ h
      refine ⟨List.Pairwise.cons ?_ hp, ?_⟩
      · intro b hb heq
        have h2 := hnm b hb
        simp only [List.mem_cons] at h2
        exact h2 (Or.inl heq.symm)
      · intro x hx
        rcases List.mem_cons.mp hx with hxd | hxr
        · rw [hxd]; exact hm
        · intro hmem
          have h2 := hnm x hxr
          simp only [List.mem_cons] at h2
          exact h2 (Or.inr hmem)

/-- C10: `findProjectDatabases` never returns two databases sharing an
environment — a successful result is pairwise distinct in environment IDs;
an empty store result, an environment filter matching nothing, and a
duplicated environment among the filtered candidates each produce an error
and no partial list. -/
theorem c10_findProjectDatabases :
    (∀ (pid : Nat) (dbName envName : String) (found : List Database)
        (l : List Database),
      findProjectDatabases pid dbName envName found = .ok l →
      l.Pairwise (fun a b => a.inst.environmentID ≠ b.inst.environmentID)) ∧
    (∀ (pid : Nat) (dbName envName : String),
      findProjectDatabases pid dbName envName [] =
        .error ("project " ++ toString pid ++ " does not have database \"" ++
          dbName ++ "\"")) ∧
    (∀ (pid : Nat) (dbName envName : String) (found : List Database),
      envName ≠ "" → found ≠ [] →
      found.filter (fun d => goEqualFold d.inst.environment.name envName) = [] →
      findProjectDatabases pid dbName envName found =
        .error ("project " ++ toString pid ++ " does not have database \"" ++
          dbName ++ "\" for environment \"" ++ envName ++ "\"")) ∧
    (∀ (pid : Nat) (dbName envName : String) (found : List Database),
      ¬ (if envName ≠ "" then
          found.filter (fun d => goEqualFold d.inst.environment.name envName)
        else found).Pairwise
          (fun a b => a.inst.environmentID ≠ b.inst.environmentID) →
      ∀ l, findProjectDatabases pid dbName envName found ≠ .ok l) := by
  have hok : ∀ (pid : Nat) (dbName envName : String) (found : List Database)
      (l : List Database),
      findProjectDatabases pid dbName envName found = .ok l →
      l = (if envName ≠ "" then
            found.filter (fun d => goEqualFold d.inst.environment.name envName)
          else found) ∧
      l.Pairwise (fun a b => a.inst.environmentID ≠ b.inst.environmentID) := by
    intro pid dbName envName found l h
    unfold findProjectDatabases at h
    by_cases hf : found = []
    · simp [hf] at h
    · simp only [hf, if_false] at h
      set filtered := (if envName ≠ "" then
        found.filter (fun d => goEqualFold d.inst.environment.name envName)
      else found) with hfd
      by_cases he : envName ≠ "" ∧ filtered = []
      · rw [if_pos] at h
        · cases h
        · exact he
      · rw [if_neg he] at h
        cases hc : checkDistinctEnvironments pid dbName envName filtered [] with
        | error e => rw [hc] at h; cases h
        | ok u =>
          rw [hc] at h
          simp only [Except.ok.injEq] at h
          subst h
          exact ⟨rfl, (checkDistinct_ok_pairwise pid dbName envName filtered [] hc).1⟩
  refine ⟨fun pid d e f l h => (hok pid d e f l h).2, ?_, ?_, ?_⟩
  · intro pid dbName envName
    unfold findProjectDatabases
    simp
  · intro pid dbName envName found he hf hfil
    simp [findProjectDatabases, hf, he, hfil]
  · intro pid dbName envName found hnp l h
    exact hnp ((hok pid dbName envName found l h).1 ▸ (hok pid dbName envName found l h).2)

/-- C10 witness: a singleton store result passes with pairwise-distinct
environments, and two same-environment candidates are rejected. -/
theorem c10_witness :
    ([dbShopDev] : List Database).Pairwise
      (fun a b => a.inst.environmentID ≠ b.inst.environmentID) ∧
    (∀ l, findProjectDatabases 10 "shop" "dev" [dbShopDev, dbShopDev2] ≠ .ok l) := by
  constructor
  · exact c10_findProjectDatabases.1 10 "shop" "" [dbShopDev] [dbShopDev] (by decide)
  · exact c10_findProjectDatabases.2.2.2 10 "shop" "dev" [dbShopDev, dbShopDev2]
      (by decide)

/-! ## C1 — merged-issue type and name -/

/-- Helper: the issue-type fold yields schema update exactly when the
accumulator already is schema update or some detail's kind is migrate or
baseline. -/
theorem issueType_foldl_schema (l : List MigrationDetail) :
    ∀ acc : IssueType,
      l.foldl
        (fun acc d =>
          if d.migrationType = .migrate ∨ d.migrationType = .baseline then
            IssueType.databaseSchemaUpdate
          else acc) acc = .databaseSchemaUpdate ↔
      (acc = .databaseSchemaUpdate ∨
        ∃ d ∈ l, d.migrationType = .migrate ∨ d.migrationType = .baseline) := by
  induction l with
  | nil => intro acc; simp
  | cons d rest ih =>
    intro acc
    simp only [List.foldl_cons]
    by_cases hd : d.migrationType = .migrate ∨ d.migrationType = .baseline
    · rw [if_pos hd, ih]
      simp [hd]
    · rw [if_neg hd, ih]
      simp only [List.mem_cons]
      constructor
      · rintro (h | ⟨x, hx, hxt⟩)
        · exact Or.inl h
        · exact Or.inr ⟨x, Or.inr hx, hxt⟩
      · rintro (h | ⟨x, hx1 | hx2, hxt⟩)
        · exact Or.inl h
        · rw [hx1] at hxt; exact absurd hxt hd
        · exact Or.inr ⟨x, hx2, hxt⟩

/-- C1 (amended): for the single merged issue of a push-event file group,
the issue's type is schema update exactly when some migration detail's kind
is migrate or baseline; the issue's name verb is "Alter schema" exactly when
some detail's kind is migrate (so a baseline-only group gets the schema
update type but the "Change data" name), and otherwise "Change data"; and
the non-SDL scenario of one schema-kind plus one migrate-kind file for
database shop produces exactly one created issue named "[shop] Alter
schema" of type schema update. -/
theorem c1_issue_type_and_name :
    (∀ l : List MigrationDetail,
      issueTypeOfDetails l = .databaseSchemaUpdate ↔
        ∃ d ∈ l, d.migrationType = .migrate ∨ d.migrationType = .baseline) ∧
    (∀ l : List MigrationDetail,
      (migrateTypeOfDetails l = "Alter schema" ↔
        ∃ d ∈ l, d.migrationType = .migrate) ∧
      (migrateTypeOfDetails l = "Alter schema" ∨
        migrateTypeOfDetails l = "Change data")) ∧
    (processFilesInProject true 7 extOK repoShop [schemaFI, migrateFI]).map
        (fun r => (r.createdIssues.map (fun i => (i.name, i.type)), r.created)) =
      .ok ([("[shop] Alter schema", .databaseSchemaUpdate)], true) := by
  refine ⟨?_, ?_, by decide⟩
  · intro l
    rw [issueTypeOfDetails, issueType_foldl_schema]
    simp
  · intro l
    induction l with
    | nil => simp [migrateTypeOfDetails]
    | cons d rest ih =>
      by_cases hd : d.migrationType = .migrate
      · simp [migrateTypeOfDetails, hd]
      · simp only [migrateTypeOfDetails, hd, if_false, List.mem_cons]
        refine ⟨?_, ih.2⟩
        rw [ih.1]
        constructor
        · rintro ⟨x, hx, hxt⟩
          exact ⟨x, Or.inr hx, hxt⟩
        · rintro ⟨x, hx1 | hx2, hxt⟩
          · rw [hx1] at hxt; exact absurd hxt hd
          · exact ⟨x, hx2, hxt⟩

/-- C1 counterexample: a merged group whose only detail has the baseline
kind produces a single issue of type schema update whose name is
"[shop] Change data", so the name is not "[<database>] Alter schema"
exactly when the type is schema update. -/
theorem c1_counterexample :
    (processFilesInProject true 7 extOK repoShop [baselineFI]).map
        (fun r => r.createdIssues.map (fun i => (i.name, i.type))) =
      .ok [("[shop] Change data", .databaseSchemaUpdate)] := by decide

/-! ## C5 — omit-database-name policy and YAML template switch -/

/-- C5 (amended): the classifier permits omitting the database-name segment
exactly when the project is tenant-mode and the file is YAML or the
database-name template is empty; in the tenant-mode YAML case the template
is the base-directory join with its first ".sql" occurrence replaced by
".yml" — which swaps the ".sql" suffix whenever the first occurrence sits at
the end. -/
theorem c5_allow_omit :
    (∀ (r : Repository) (fi : DistinctFileItem),
      (classifierTemplate r fi).allowOmitDatabaseName = true ↔
        (r.project.tenantMode = .tenant ∧
          (fi.isYAML = true ∨ r.project.dbNameTemplate = ""))) ∧
    (∀ (r : Repository) (fi : DistinctFileItem),
      r.project.tenantMode = .tenant → fi.isYAML = true →
      (classifierTemplate r fi).filePathTemplate =
        goReplaceOnce (pathJoin r.baseDirectory r.filePathTemplate)
          ".sql" ".yml") ∧
    (∀ t : String, goIndex t ".sql" = some (t.data.length - 4) →
      4 ≤ t.data.length →
      goReplaceOnce t ".sql" ".yml" =
        ⟨t.data.take (t.data.length - 4)⟩ ++ ".yml") := by
  refine ⟨?_, ?_, ?_⟩
  · intro r fi
    unfold classifierTemplate
    by_cases ht : r.project.tenantMode = .tenant
    · by_cases hy : fi.isYAML
      · simp [ht, hy]
      · by_cases hd : r.project.dbNameTemplate = ""
        · simp [ht, hy, hd]
        · simp [ht, hy, hd]
    · simp [ht]
  · intro r fi ht hy
    unfold classifierTemplate
    simp [ht, hy]
  · intro t hidx hlen
    unfold goReplaceOnce
    rw [if_neg (by decide), hidx]
    have hdrop : t.data.drop (t.data.length - 4 + ".sql".length) = [] := by
      apply List.drop_eq_nil_of_le
      have h4 : ".sql".length = 4 := by decide
      omega
    dsimp only
    rw [hdrop]
    have happ : (⟨t.data.take (t.data.length - 4)⟩ ++ (".yml" : String)) =
        ⟨t.data.take (t.data.length - 4) ++ ".yml".data⟩ := rfl
    rw [happ]
    simp

/-- C5 witness: the amended facts at a concrete tenant-mode repository with
a YAML file and at a template whose only ".sql" is its suffix. -/
theorem c5_witness :
    (classifierTemplate
        { id := 3, projectID := 30
          project := { name := "p3", tenantMode := .tenant,
                       dbNameTemplate := "dbname",
                       schemaChangeType := .ddl }
          baseDirectory := "bb"
          filePathTemplate := "dbname__version.sql"
          schemaPathTemplate := "" }
        { fileName := "bb/x.yml", commitID := "c", itemType := .added,
          isYAML := true }).filePathTemplate =
      goReplaceOnce (pathJoin "bb" "dbname__version.sql") ".sql" ".yml" ∧
    goReplaceOnce "bb/dbname__version.sql" ".sql" ".yml" =
      ⟨("bb/dbname__version.sql").data.take
        (("bb/dbname__version.sql").data.length - 4)⟩ ++ ".yml" := by
  constructor
  · exact c5_allow_omit.2.1 _ _ rfl rfl
  · exact c5_allow_omit.2.2 "bb/dbname__version.sql" (by decide) (by decide)

/-- C5 counterexample: for a tenant-mode YAML file whose joined template
contains ".sql" before the suffix, the classifier replaces the first
occurrence, leaving the template still ending in ".sql" — the ".sql" suffix
is not the part replaced, refuting the claim as stated. -/
theorem c5_counterexample :
    (classifierTemplate
        { id := 2, projectID := 20
          project := { name := "p2", tenantMode := .tenant,
                       dbNameTemplate := "dbname",
                       schemaChangeType := .ddl }
          baseDirectory := "bb"
          filePathTemplate := "foo.sql.d/name.sql"
          schemaPathTemplate := "" }
        { fileName := "f", commitID := "c", itemType := .added,
          isYAML := true }).filePathTemplate = "bb/foo.yml.d/name.sql" ∧
    goHasSuf "bb/foo.yml.d/name.sql" ".sql" = true ∧
    "bb/foo.yml.d/name.sql" ≠ "bb/foo.sql.d/name.yml" := by decide

/-! ## C2 — exactly-one-repository classification -/

/-- Helper: for a non-YAML file the classification loop never aborts; every
parse failure is a soft skip of the candidate repository. -/
theorem classifyLoop_ok_of_not_yaml
    (pm : String → String → Bool → Except String (Option MigrationInfo))
    (ps : String → String → String → Except String (Option MigrationInfo))
    (item : DistinctFileItem) (hy : item.isYAML = false) :
    ∀ (repos : List Repository)
      (st : Option MigrationInfo × FileType × List Repository),
      ∃ st', getFileInfoLoop pm ps item repos st = .ok st' := by
  intro repos
  induction repos with
  | nil => intro st; exact ⟨st, rfl⟩
  | cons repository rest ih =>
    intro st
    unfold getFileInfoLoop
    by_cases hpre : goHasPre item.fileName repository.baseDirectory = false
    · rw [if_pos hpre]; exact ih st
    · rw [if_neg hpre]
      dsimp only
      cases hpm : pm item.fileName
          (classifierTemplate repository item).filePathTemplate
          (classifierTemplate repository item).allowOmitDatabaseName with
      | error e => exact ih st
      | ok omi =>
        cases omi with
        | none =>
          cases hps : ps repository.baseDirectory repository.schemaPathTemplate
              item.fileName with
          | error e => exact ih st
          | ok osi =>
            cases osi with
            | none => exact ih st
            | some si => exact ih _
        | some mi =>
          dsimp only
          rw [if_neg (by simp [hy])]
          exact ih _

/-- C2: classification of one changed file against the candidate
repositories: a non-YAML file always completes the candidate loop; with the
completed loop state, zero matched repositories yield the
not-associated-with-any-project error, and two or more matched repositories
yield the error naming every matched project; and `groupFileInfoByRepo`
ignores exactly the files whose classification fails, keeping the rest of
the push event flowing. -/
theorem c2_classification :
    (∀ (pm : String → String → Bool → Except String (Option MigrationInfo))
        (ps : String → String → String → Except String (Option MigrationInfo))
        (item : DistinctFileItem) (repos : List Repository),
      item.isYAML = false →
      ∃ st, classifyState pm ps item repos = .ok st) ∧
    (∀ (pm : String → String → Bool → Except String (Option MigrationInfo))
        (ps : String → String → String → Except String (Option MigrationInfo))
        (item : DistinctFileItem) (repos : List Repository)
        (mi : Option MigrationInfo) (ft : FileType)
        (matched : List Repository),
      classifyState pm ps item repos = .ok (mi, ft, matched) →
      (matched = [] →
        getFileInfo pm ps item repos =
          .error "file change is not associated with any project") ∧
      (2 ≤ matched.length →
        getFileInfo pm ps item repos =
          .error ("file change should be associated with exactly one project but found " ++
            goJoin (matched.map (fun r => r.project.name)) ", "))) ∧
    (∀ (pm : String → String → Bool → Except String (Option MigrationInfo))
        (ps : String → String → String → Except String (Option MigrationInfo))
        (files : List DistinctFileItem) (repos : List Repository),
      groupFileInfoByRepo pm ps files repos =
        groupFileInfoByRepo pm ps
          (files.filter (fun it => (getFileInfo pm ps it repos).isOk)) repos) := by
  refine ⟨?_, ?_, ?_⟩
  · intro pm ps item repos hy
    exact classifyLoop_ok_of_not_yaml pm ps item hy repos _
  · intro pm ps item repos mi ft matched hok
    unfold getFileInfo
    rw [classifyState] at hok
    rw [hok]
    constructor
    · intro hm; subst hm; rfl
    · intro hlen
      match matched, hlen with
      | a :: b :: rest, _ => rfl
  · intro pm ps files repos
    unfold groupFileInfoByRepo
    suffices h : ∀ (fs : List DistinctFileItem) (m : Nat → List FileInfo),
        fs.foldl (groupStep pm ps repos) m =
          (fs.filter (fun it => (getFileInfo pm ps it repos).isOk)).foldl
            (groupStep pm ps repos) m by
      exact h files _
    intro fs
    induction fs with
    | nil => intro m; rfl
    | cons item rest ih =>
      intro m
      simp only [List.foldl_cons, List.filter_cons]
      cases hg : getFileInfo pm ps item repos with
      | error e =>
        have hstep : groupStep pm ps repos m item = m := by
          unfold groupStep
          rw [hg]
        rw [hstep, if_neg (by simp [Except.isOk, Except.toBool, hg]), ih]
      | ok st =>
        rw [if_pos (by simp [Except.isOk, Except.toBool, hg])]
        simp only [List.foldl_cons]
        exact ih (groupStep pm ps repos m item)

/-- C2 witness: with always-miss parsers a file outside every base
directory matches zero repositories and is rejected softly, and with an
always-hit parser a file matching two repositories is rejected with the
error naming both projects. -/
theorem c2_witness :
    getFileInfo (fun _ _ _ => .ok none) (fun _ _ _ => .ok none)
        { fileName := "zz.sql", commitID := "c", itemType := .added,
          isYAML := false }
        [repoShop] =
      .error "file change is not associated with any project" ∧
    getFileInfo
        (fun _ _ _ => .ok (some { database := "shop", environment := "",
                                  version := "v1", type := .migrate }))
        (fun _ _ _ => .ok none)
        { fileName := "bb/f.sql", commitID := "c", itemType := .added,
          isYAML := false }
        [repoShop, repoShop2] =
      .error ("file change should be associated with exactly one project but found " ++
        goJoin ([repoShop, repoShop2].map (fun r => r.project.name)) ", ") := by
  constructor
  · exact (c2_classification.2.1 (fun _ _ _ => .ok none) (fun _ _ _ => .ok none)
      { fileName := "zz.sql", commitID := "c", itemType := .added,
        isYAML := false }
      [repoShop] none .unknownFileType [] (by decide)).1 rfl
  · exact (c2_classification.2.1
      (fun _ _ _ => .ok (some { database := "shop", environment := "",
                                version := "v1", type := .migrate }))
      (fun _ _ _ => .ok none)
      { fileName := "bb/f.sql", commitID := "c", itemType := .added,
        isYAML := false }
      [repoShop, repoShop2]
      (some { database := "shop", environment := "", version := "v1",
              type := .migrate })
      .migrationFileType [repoShop, repoShop2] (by decide)).2 (by decide)

/-! ## C7 — partial per-file failures in the SQL review endpoint -/

/-- Helper: a key outside the map makes `mapAssign` a plain append. -/
theorem mapAssign_append (m : List (String × List Advice)) (k : String)
    (v : List Advice) (hk : k ∉ adviceKeys m) :
    mapAssign m k v = m ++ [(k, v)] := by
  unfold mapAssign
  rw [if_neg]
  simp only [Option.isSome_iff_exists, not_exists]
  intro p hp
  have hm := List.find?_some hp
  have hmem := List.mem_of_find?_eq_some hp
  simp only [beq_iff_eq] at hm
  exact hk (by
    unfold adviceKeys
    exact List.mem_map.mpr ⟨p, hmem, hm⟩)

/-- Helper: with distinct file names, the advice-collection loop appends the
successful files' entries in order. -/
theorem collect_aux :
    ∀ (results : List (String × Option (List Advice)))
      (acc : List (String × List Advice)),
      (results.map Prod.fst).Nodup →
      (∀ k ∈ adviceKeys acc, k ∉ results.map Prod.fst) →
      adviceKeys (results.foldl
        (fun m r =>
          match r.2 with
          | none => m
          | some adviceList => mapAssign m r.1 adviceList) acc) =
        adviceKeys acc ++ (results.filter (fun r => r.2.isSome)).map Prod.fst := by
  intro results
  induction results with
  | nil => intro acc _ _; simp
  | cons r rest ih =>
    intro acc hnd hdisj
    simp only [List.map_cons, List.nodup_cons] at hnd
    simp only [List.foldl_cons, List.filter_cons]
    cases hr : r.2 with
    | none =>
      simp only [hr, Option.isSome_none]
      rw [if_neg (by simp)]
      exact ih acc hnd.2 (fun k hk => fun hmem => hdisj k hk (by simp [hmem]))
    | some l =>
      simp only [hr, Option.isSome_some, if_true]
      have hknot : r.1 ∉ adviceKeys acc := fun hmem => hdisj r.1 hmem (by simp)
      rw [mapAssign_append acc r.1 l hknot]
      rw [ih (acc ++ [(r.1, l)]) hnd.2 ?_]
      · simp [adviceKeys]
      · intro k hk
        unfold adviceKeys at hk
        simp only [List.map_append, List.mem_append, List.map_cons,
          List.map_nil, List.mem_singleton] at hk
        rcases hk with hk1 | hk2
        · exact fun hmem => hdisj k hk1 (by simp [hmem])
        · rw [hk2]; exact hnd.1

/-- Helper: a results list with no successes collects nothing. -/
theorem collect_none (results : List (String × Option (List Advice)))
    (h : ∀ r ∈ results, r.2 = none) : collectSQLAdvice results = [] := by
  unfold collectSQLAdvice
  induction results with
  | nil => rfl
  | cons r rest ih =>
    simp only [List.foldl_cons]
    rw [h r (by simp)]
    exact ih (fun x hx => h x (by simp [hx]))

/-- Helper: the is-some and is-none partitions of the results cover it. -/
theorem filter_some_none_length
    (results : List (String × Option (List Advice))) :
    (results.filter (fun r => r.2.isSome)).length +
      (results.filter (fun r => r.2.isNone)).length = results.length := by
  induction results with
  | nil => rfl
  | cons r rest ih =>
    simp only [List.filter_cons]
    cases hr : r.2 with
    | none => simp only [hr, Option.isSome_none, Option.isNone_none]; simp; omega
    | some l => simp only [hr, Option.isSome_some, Option.isNone_some]; simp; omega

/-- C7: the SQL review endpoint always answers HTTP 200; with distinct file
names the collected report holds exactly the files whose review succeeded
(N − M entries for M failures), in particular a request whose every file
fails still answers 200 with the all-clear empty report on both provider
formats. -/
theorem c7_sql_review_skips :
    (∀ (vcsType : VCSType) (results : List (String × Option (List Advice))),
      (sqlReviewResponse vcsType results).1 = 200) ∧
    (∀ results : List (String × Option (List Advice)),
      (results.map Prod.fst).Nodup →
      adviceKeys (collectSQLAdvice results) =
        (results.filter (fun r => r.2.isSome)).map Prod.fst ∧
      (collectSQLAdvice results).length =
        results.length - (results.filter (fun r => r.2.isNone)).length) ∧
    (∀ results : List (String × Option (List Advice)),
      (∀ r ∈ results, r.2 = none) →
      (sqlReviewResponse .gitHubCom results).2 =
        { status := advisorSuccess, content := [] } ∧
      (sqlReviewResponse .gitLabSelfHost results).2 =
        { status := advisorSuccess,
          content := ["<?xml version=\"1.0\" encoding=\"UTF-8\"?>\n<testsuites name=\"SQL Review\">\n\n</testsuites>"] }) := by
  refine ⟨fun vcsType results => rfl, ?_, ?_⟩
  · intro results hnd
    have hk : adviceKeys (collectSQLAdvice results) =
        (results.filter (fun r => r.2.isSome)).map Prod.fst := by
      have := collect_aux results [] hnd (by simp [adviceKeys])
      simpa [collectSQLAdvice, adviceKeys] using this
    refine ⟨hk, ?_⟩
    have hlen1 : (collectSQLAdvice results).length =
        (adviceKeys (collectSQLAdvice results)).length := by
      simp [adviceKeys]
    rw [hlen1, hk, List.length_map]
    have := filter_some_none_length results
    omega
  · intro results h
    rw [show (sqlReviewResponse .gitHubCom results) =
        (200, convertSQLAdiceToGitHubActionResult (collectSQLAdvice results))
      from rfl]
    rw [show (sqlReviewResponse .gitLabSelfHost results) =
        (200, convertSQLAdviceToGitLabCIResult (collectSQLAdvice results))
      from rfl]
    rw [collect_none results h]
    exact ⟨by decide, by decide⟩

/-- C7 witness: three files of which one fails yield a report of exactly the
two successful files, and an all-failing request yields the empty reports. -/
theorem c7_witness :
    adviceKeys (collectSQLAdvice
      [("a.sql", some []), ("b.sql", none), ("c.sql", some [])]) =
      ["a.sql", "c.sql"] ∧
    (collectSQLAdvice
      [("a.sql", some []), ("b.sql", none), ("c.sql", some [])]).length = 2 ∧
    (sqlReviewResponse .gitHubCom [("a.sql", none)]).2 =
      { status := advisorSuccess, content := [] } := by
  have h := (c7_sql_review_skips.2.1
    [("a.sql", some []), ("b.sql", none), ("c.sql", some [])] (by decide))
  refine ⟨by simpa using h.1, by simpa using h.2, ?_⟩
  exact (c7_sql_review_skips.2.2 [("a.sql", none)] (by decide)).1

/-! ## C6 — CI formatter aggregation and ordering -/

/-- Helper: the status component of the GitLab per-file fold ignores the
test-case accumulator and is the per-advice status fold. -/
theorem gitlabFold_status (f : String) :
    ∀ (l : List Advice) (tc : List String) (st : String),
      (l.foldl
        (fun (acc : List String × String) advice =>
          if advice.code = 0 then acc
          else
            let line := if advice.line ≤ 0 then 1 else advice.line
            let status1 :=
              if advice.status = advisorError then advice.status
              else if advice.status = advisorWarn ∧ acc.2 ≠ advisorError then
                advice.status
              else acc.2
            let content := "Error: " ++ advice.content ++
              ".\nYou can check the docs at " ++ sqlReviewDocs ++ "#" ++
              toString advice.code
            let testcase := "<testcase name=\"" ++ advice.title ++
              "\" classname=\"" ++ f ++ "\" file=\"" ++ f ++
              "#L" ++ toString line ++ "\">\n<failure>\n" ++ content ++
              "\n</failure>\n</testcase>"
            (acc.1 ++ [testcase], status1)) (tc, st)).2 =
      l.foldl
        (fun st advice =>
          if advice.code = 0 then st
          else if advice.status = advisorError then advice.status
          else if advice.status = advisorWarn ∧ st ≠ advisorError then
            advice.status
          else st) st := by
  intro l
  induction l with
  | nil => intro tc st; rfl
  | cons a rest ih =>
    intro tc st
    simp only [List.foldl_cons]
    by_cases hc : a.code = 0
    · rw [if_pos hc, if_pos hc]
      exact ih tc st
    · rw [if_neg hc, if_neg hc]
      exact ih _ _

/-- Helper: the per-advice status fold of the GitLab formatter computes the
most severe status among the non-zero-code advices, joined with the starting
status. -/
theorem statusFold_gitlab :
    ∀ (l : List Advice) (st : String),
      (st = advisorSuccess ∨ st = advisorWarn ∨ st = advisorError) →
      (∀ a ∈ l, a.status = advisorSuccess ∨ a.status = advisorWarn ∨
        a.status = advisorError) →
      l.foldl
        (fun st advice =>
          if advice.code = 0 then st
          else if advice.status = advisorError then advice.status
          else if advice.status = advisorWarn ∧ st ≠ advisorError then
            advice.status
          else st) st =
      (if l.any (fun a => decide (a.code ≠ 0 ∧ a.status = advisorError)) then
        advisorError
      else if l.any (fun a => decide (a.code ≠ 0 ∧ a.status = advisorWarn)) then
        (if st = advisorSuccess then advisorWarn else st)
      else st) := by
  intro l
  induction l with
  | nil => intro st _ _; simp
  | cons a rest ih =>
    intro st hst hl
    have ha := hl a (by simp)
    have hrest : ∀ x ∈ rest, x.status = advisorSuccess ∨ x.status = advisorWarn ∨
        x.status = advisorError := fun x hx => hl x (by simp [hx])
    simp only [List.foldl_cons, List.any_cons]
    by_cases hc : a.code = 0
    · rw [if_pos hc]
      have h1 : decide (a.code ≠ 0 ∧ a.status = advisorError) = false := by
        simp [hc]
      have h2 : decide (a.code ≠ 0 ∧ a.status = advisorWarn) = false := by
        simp [hc]
      simp only [h1, h2, Bool.false_or]
      exact ih st hst hrest
    · rw [if_neg hc]
      rcases ha with haS | haW | haE
      · have h1 : decide (a.code ≠ 0 ∧ a.status = advisorError) = false := by
          simp [haS, advisorSuccess, advisorError]
        have h2 : decide (a.code ≠ 0 ∧ a.status = advisorWarn) = false := by
          simp [haS, advisorSuccess, advisorWarn]
        simp only [h1, h2, Bool.false_or]
        rw [if_neg (by simp [haS, advisorSuccess, advisorError]),
          if_neg (by simp [haS, advisorSuccess, advisorWarn])]
        exact ih st hst hrest
      · have h1 : decide (a.code ≠ 0 ∧ a.status = advisorError) = false := by
          simp [haW, advisorWarn, advisorError]
        have h2 : decide (a.code ≠ 0 ∧ a.status = advisorWarn) = true := by
          simp [haW, hc]
        simp only [h1, h2, Bool.false_or, Bool.true_or]
        rw [if_neg (by simp [haW, advisorWarn, advisorError])]
        by_cases hstE : st = advisorError
        · rw [if_neg (by simp [hstE])]
          rw [ih st hst hrest]
          subst hstE
          clear ih hl hrest h1 h2 hst
          split_ifs <;> simp_all [advisorSuccess, advisorWarn, advisorError]
        · rw [if_pos ⟨haW, hstE⟩]
          rw [ih a.status (Or.inr (Or.inl haW)) hrest]
          simp only [haW]
          clear ih hl hrest h1 h2
          rcases hst with h | h | h
          · subst h
            split_ifs <;> simp_all [advisorSuccess, advisorWarn, advisorError]
          · subst h
            split_ifs <;> simp_all [advisorSuccess, advisorWarn, advisorError]
          · exact absurd h hstE
      · have h1 : decide (a.code ≠ 0 ∧ a.status = advisorError) = true := by
          simp [haE, hc]
        simp only [h1, Bool.true_or]
        rw [if_pos haE]
        rw [ih a.status (Or.inr (Or.inr haE)) hrest]
        simp only [haE]
        clear ih hl hrest h1 hst
        split_ifs <;> simp_all [advisorSuccess, advisorWarn, advisorError]

/-- Helper: an advice looked up from the map is an advice of some map
entry. -/
theorem lookupAdvice_mem (m : List (String × List Advice)) (f : String)
    (a : Advice) (h : a ∈ lookupAdvice m f) : ∃ p ∈ m, a ∈ p.2 := by
  unfold lookupAdvice at h
  cases hf : m.find? (fun p => p.1 == f) with
  | none => rw [hf] at h; simp at h
  | some p =>
    rw [hf] at h
    simp only [Option.map_some', Option.getD_some] at h
    exact ⟨p, List.mem_of_find?_eq_some hf, h⟩

/-- Helper: the status component of the GitLab formatter's file loop is the
per-advice status fold over the files' advices in order. -/
theorem gitlabFiles_status (m : List (String × List Advice)) :
    ∀ (fs : List String) (ts : List String) (st : String),
      (fs.foldl
        (fun (acc : List String × String) filePath =>
          let pr := gitlabFileFold filePath (lookupAdvice m filePath) acc.2
          (if pr.1.length > 0 then
            acc.1 ++ ["<testsuite name=\"" ++ filePath ++ "\">\n" ++
              goJoin pr.1 "\n" ++ "\n</testsuite>"]
          else acc.1, pr.2)) (ts, st)).2 =
      (fs.flatMap (lookupAdvice m)).foldl
        (fun st advice =>
          if advice.code = 0 then st
          else if advice.status = advisorError then advice.status
          else if advice.status = advisorWarn ∧ st ≠ advisorError then
            advice.status
          else st) st := by
  intro fs
  induction fs with
  | nil => intro ts st; rfl
  | cons f rest ih =>
    intro ts st
    simp only [List.foldl_cons, List.flatMap_cons, List.foldl_append]
    rw [← gitlabFold_status f (lookupAdvice m f) [] st]
    exact ih _ _

/-- Helper: the status component of the GitHub per-file fold ignores the
message accumulator and is the per-advice status fold. -/
theorem githubFold_status (f : String) :
    ∀ (l : List Advice) (ms : List String) (st : String),
      (githubFileFold f l (ms, st)).2 =
      l.foldl
        (fun st advice =>
          if advice.code = 0 ∨ advice.status = advisorSuccess then st
          else
            (if advice.status = advisorError then ("error", advice.status)
              else ("warning",
                if st ≠ advisorError then advice.status else st)).2) st := by
  intro l
  induction l with
  | nil => intro ms st; rfl
  | cons a rest ih =>
    intro ms st
    unfold githubFileFold at ih ⊢
    simp only [List.foldl_cons]
    by_cases hc : a.code = 0 ∨ a.status = advisorSuccess
    · rw [if_pos hc, if_pos hc]
      exact ih ms st
    · rw [if_neg hc, if_neg hc]
      exact ih _ _

/-- Helper: the per-advice status fold of the GitHub formatter computes the
most severe status among the non-zero-code advices, joined with the starting
status. -/
theorem statusFold_github :
    ∀ (l : List Advice) (st : String),
      (st = advisorSuccess ∨ st = advisorWarn ∨ st = advisorError) →
      (∀ a ∈ l, a.status = advisorSuccess ∨ a.status = advisorWarn ∨
        a.status = advisorError) →
      l.foldl
        (fun st advice =>
          if advice.code = 0 ∨ advice.status = advisorSuccess then st
          else
            (if advice.status = advisorError then ("error", advice.status)
              else ("warning",
                if st ≠ advisorError then advice.status else st)).2) st =
      (if l.any (fun a => decide (a.code ≠ 0 ∧ a.status = advisorError)) then
        advisorError
      else if l.any (fun a => decide (a.code ≠ 0 ∧ a.status = advisorWarn)) then
        (if st = advisorSuccess then advisorWarn else st)
      else st) := by
  intro l
  induction l with
  | nil => intro st _ _; simp
  | cons a rest ih =>
    intro st hst hl
    have ha := hl a (by simp)
    have hrest : ∀ x ∈ rest, x.status = advisorSuccess ∨ x.status = advisorWarn ∨
        x.status = advisorError := fun x hx => hl x (by simp [hx])
    simp only [List.foldl_cons, List.any_cons]
    by_cases hc : a.code = 0 ∨ a.status = advisorSuccess
    · rw [if_pos hc]
      have h1 : decide (a.code ≠ 0 ∧ a.status = advisorError) = false := by
        rcases hc with h | h
        · simp [h]
        · simp [h, advisorSuccess, advisorError]
      have h2 : decide (a.code ≠ 0 ∧ a.status = advisorWarn) = false := by
        rcases hc with h | h
        · simp [h]
        · simp [h, advisorSuccess, advisorWarn]
      simp only [h1, h2, Bool.false_or]
      exact ih st hst hrest
    · rw [if_neg hc]
      push_neg at hc
      rcases ha with haS | haW | haE
      · exact absurd haS hc.2
      · have h1 : decide (a.code ≠ 0 ∧ a.status = advisorError) = false := by
          simp [haW, advisorWarn, advisorError]
        have h2 : decide (a.code ≠ 0 ∧ a.status = advisorWarn) = true := by
          simp [haW, hc.1]
        simp only [h1, h2, Bool.false_or, Bool.true_or]
        rw [if_neg (by simp [haW, advisorWarn, advisorError])]
        by_cases hstE : st = advisorError
        · rw [if_neg (by simp [hstE])]
          simp only []
          rw [ih st hst hrest]
          subst hstE
          clear ih hl hrest h1 h2 hst
          split_ifs <;> simp_all [advisorSuccess, advisorWarn, advisorError]
        · rw [if_pos hstE]
          simp only []
          rw [ih a.status (Or.inr (Or.inl haW)) hrest]
          simp only [haW]
          clear ih hl hrest h1 h2
          rcases hst with h | h | h
          · subst h
            split_ifs <;> simp_all [advisorSuccess, advisorWarn, advisorError]
          · subst h
            split_ifs <;> simp_all [advisorSuccess, advisorWarn, advisorError]
          · exact absurd h hstE
      · have h1 : decide (a.code ≠ 0 ∧ a.status = advisorError) = true := by
          simp [haE, hc.1]
        simp only [h1, Bool.true_or]
        rw [if_pos haE]
        simp only []
        rw [ih a.status (Or.inr (Or.inr haE)) hrest]
        simp only [haE]
        clear ih hl hrest h1 hst
        split_ifs <;> simp_all [advisorSuccess, advisorWarn, advisorError]

/-- Helper: the status component of the GitHub formatter's file loop is the
per-advice status fold over the files' advices in order. -/
theorem githubFiles_status (m : List (String × List Advice)) :
    ∀ (fs : List String) (ms : List String) (st : String),
      (fs.foldl
        (fun (acc : List String × String) filePath =>
          githubFileFold filePath (lookupAdvice m filePath) acc) (ms, st)).2 =
      (fs.flatMap (lookupAdvice m)).foldl
        (fun st advice =>
          if advice.code = 0 ∨ advice.status = advisorSuccess then st
          else
            (if advice.status = advisorError then ("error", advice.status)
              else ("warning",
                if st ≠ advisorError then advice.status else st)).2) st := by
  intro fs
  induction fs with
  | nil => intro ms st; rfl
  | cons f rest ih =>
    intro ms st
    simp only [List.foldl_cons, List.flatMap_cons, List.foldl_append]
    rw [← githubFold_status f (lookupAdvice m f) ms st]
    exact ih _ _

/-- Helper: the GitHub per-file fold prepends its accumulator to the
messages it produces from the empty accumulator. -/
theorem githubFold_msgs_append (f : String) :
    ∀ (l : List Advice) (ms : List String) (st : String),
      (githubFileFold f l (ms, st)).1 = ms ++ (githubFileFold f l ([], st)).1 := by
  intro l
  induction l with
  | nil => intro ms st; simp [githubFileFold]
  | cons a rest ih =>
    intro ms st
    unfold githubFileFold at ih ⊢
    simp only [List.foldl_cons]
    by_cases hc : a.code = 0 ∨ a.status = advisorSuccess
    · rw [if_pos hc, if_pos hc]
      exact ih ms st
    · rw [if_neg hc, if_neg hc, ih _ _]
      conv_rhs => rw [ih _ _]
      simp [List.append_assoc]

/-- Helper: the messages of the GitHub per-file fold do not depend on the
incoming aggregate status. -/
theorem githubFold_msgs_status (f : String) :
    ∀ (l : List Advice) (st st' : String),
      (githubFileFold f l ([], st)).1 = (githubFileFold f l ([], st')).1 := by
  intro l
  induction l with
  | nil => intro st st'; rfl
  | cons a rest ih =>
    intro st st'
    have happ := githubFold_msgs_append f rest
    unfold githubFileFold at ih happ ⊢
    simp only [List.foldl_cons]
    by_cases hc : a.code = 0 ∨ a.status = advisorSuccess
    · rw [if_pos hc, if_pos hc]
      exact ih st st'
    · rw [if_neg hc, if_neg hc, happ _ _]
      conv_rhs => rw [happ _ _]
      rw [ih _ ((if a.status = advisorError then ("error", a.status)
        else ("warning", if st' ≠ advisorError then a.status else st')).2)]
      simp [apply_ite (Prod.fst : String × String → String)]

/-- Helper: the testcases of the GitLab per-file fold prepend the incoming
accumulator and do not depend on the incoming aggregate status. -/
theorem gitlabFold_msgs (f : String) :
    ∀ (l : List Advice) (tc : List String) (st st' : String),
      (l.foldl
        (fun (acc : List String × String) advice =>
          if advice.code = 0 then acc
          else
            let line := if advice.line ≤ 0 then 1 else advice.line
            let status1 :=
              if advice.status = advisorError then advice.status
              else if advice.status = advisorWarn ∧ acc.2 ≠ advisorError then
                advice.status
              else acc.2
            let content := "Error: " ++ advice.content ++
              ".\nYou can check the docs at " ++ sqlReviewDocs ++ "#" ++
              toString advice.code
            let testcase := "<testcase name=\"" ++ advice.title ++
              "\" classname=\"" ++ f ++ "\" file=\"" ++ f ++
              "#L" ++ toString line ++ "\">\n<failure>\n" ++ content ++
              "\n</failure>\n</testcase>"
            (acc.1 ++ [testcase], status1)) (tc, st)).1 =
      tc ++ (l.foldl
        (fun (acc : List String × String) advice =>
          if advice.code = 0 then acc
          else
            let line := if advice.line ≤ 0 then 1 else advice.line
            let status1 :=
              if advice.status = advisorError then advice.status
              else if advice.status = advisorWarn ∧ acc.2 ≠ advisorError then
                advice.status
              else acc.2
            let content := "Error: " ++ advice.content ++
              ".\nYou can check the docs at " ++ sqlReviewDocs ++ "#" ++
              toString advice.code
            let testcase := "<testcase name=\"" ++ advice.title ++
              "\" classname=\"" ++ f ++ "\" file=\"" ++ f ++
              "#L" ++ toString line ++ "\">\n<failure>\n" ++ content ++
              "\n</failure>\n</testcase>"
            (acc.1 ++ [testcase], status1)) ([], st')).1 := by
  intro l
  induction l with
  | nil => intro tc st st'; simp
  | cons a rest ih =>
    intro tc st st'
    simp only [List.foldl_cons]
    by_cases hc : a.code = 0
    · rw [if_pos hc, if_pos hc]
      exact ih tc st st'
    · rw [if_neg hc, if_neg hc, ih _ _ st']
      conv_rhs => rw [ih _ _ st']
      simp [List.append_assoc]

/-- Helper: the testcases `gitlabFileFold` emits do not depend on the
starting aggregate status. -/
theorem gitlabFileFold_msgs (f : String) (l : List Advice) (st st' : String) :
    (gitlabFileFold f l st).1 = (gitlabFileFold f l st').1 := by
  unfold gitlabFileFold
  rw [gitlabFold_msgs f l [] st st']
  simp

/-- Helper: the content component of the GitLab formatter's file loop is the
accumulator followed by the per-file testsuites of the visited files. -/
theorem gitlabFiles_content (m : List (String × List Advice)) :
    ∀ (fs : List String) (ts : List String) (st : String),
      (fs.foldl
        (fun (acc : List String × String) filePath =>
          let pr := gitlabFileFold filePath (lookupAdvice m filePath) acc.2
          (if pr.1.length > 0 then
            acc.1 ++ ["<testsuite name=\"" ++ filePath ++ "\">\n" ++
              goJoin pr.1 "\n" ++ "\n</testsuite>"]
          else acc.1, pr.2)) (ts, st)).1 =
      ts ++ fs.filterMap (gitlabSuiteFor m) := by
  intro fs
  induction fs with
  | nil => intro ts st; simp
  | cons f rest ih =>
    intro ts st
    simp only [List.foldl_cons, List.filterMap_cons]
    have hme : (gitlabFileFold f (lookupAdvice m f) st).1 =
        (gitlabFileFold f (lookupAdvice m f) advisorSuccess).1 :=
      gitlabFileFold_msgs f (lookupAdvice m f) st advisorSuccess
    rw [hme]
    by_cases hlen :
        (gitlabFileFold f (lookupAdvice m f) advisorSuccess).1.length > 0
    · have hsome : gitlabSuiteFor m f =
          some ("<testsuite name=\"" ++ f ++ "\">\n" ++
            goJoin (gitlabFileFold f (lookupAdvice m f) advisorSuccess).1 "\n" ++
            "\n</testsuite>") := by
        unfold gitlabSuiteFor
        rw [if_pos hlen]
      rw [if_pos hlen, hsome, ih _ _]
      simp [List.append_assoc]
    · have hnone : gitlabSuiteFor m f = none := by
        unfold gitlabSuiteFor
        rw [if_neg hlen]
      rw [if_neg hlen, hnone, ih _ _]

/-- Helper: the content component of the GitHub formatter's file loop is the
accumulator followed by the per-file workflow-command messages of the visited
files. -/
theorem githubFiles_content (m : List (String × List Advice)) :
    ∀ (fs : List String) (ms : List String) (st : String),
      (fs.foldl
        (fun (acc : List String × String) filePath =>
          githubFileFold filePath (lookupAdvice m filePath) acc) (ms, st)).1 =
      ms ++ fs.flatMap (githubMessagesFor m) := by
  intro fs
  induction fs with
  | nil => intro ms st; simp
  | cons f rest ih =>
    intro ms st
    simp only [List.foldl_cons, List.flatMap_cons]
    have hstep := ih (githubFileFold f (lookupAdvice m f) (ms, st)).1
      (githubFileFold f (lookupAdvice m f) (ms, st)).2
    rw [Prod.mk.eta] at hstep
    rw [hstep, githubFold_msgs_append f (lookupAdvice m f) ms st,
      githubFold_msgs_status f (lookupAdvice m f) st advisorSuccess]
    unfold githubMessagesFor
    simp [List.append_assoc]

/-- **C6** (corrected).  For every advice-by-file map whose advice statuses
lie in the advisor tri-status set, both the GitLab-CI formatter and the
GitHub-Action formatter return the most severe status among the advices
carrying a NON-ZERO code (zero-code advices are excluded from aggregation —
the claim's "across all files' advices" is too strong, see the
counterexample), and both emit their per-file output over the file list
sorted lexicographically: the GitLab report is the junit wrapper around the
testsuites of the sorted file list and the GitHub report is the
concatenation of the per-file messages of the sorted file list, where the
sorted file list is an ascending permutation of the map's keys. -/
theorem c6_formatters (m : List (String × List Advice))
    (htri : ∀ p ∈ m, ∀ a ∈ p.2,
      a.status = advisorSuccess ∨ a.status = advisorWarn ∨
        a.status = advisorError) :
    (convertSQLAdviceToGitLabCIResult m).status =
      maxSeverity (allAdvicesSorted m) ∧
    (convertSQLAdiceToGitHubActionResult m).status =
      maxSeverity (allAdvicesSorted m) ∧
    (convertSQLAdviceToGitLabCIResult m).content =
      ["<?xml version=\"1.0\" encoding=\"UTF-8\"?>\n<testsuites name=\"SQL Review\">\n" ++
        goJoin ((sortStrings (adviceKeys m)).filterMap (gitlabSuiteFor m)) "\n" ++
        "\n</testsuites>"] ∧
    (convertSQLAdiceToGitHubActionResult m).content =
      (sortStrings (adviceKeys m)).flatMap (githubMessagesFor m) ∧
    List.Sorted (· ≤ ·) (sortStrings (adviceKeys m)) ∧
    List.Perm (sortStrings (adviceKeys m)) (adviceKeys m) := by
  have htri' : ∀ a ∈ (sortStrings (adviceKeys m)).flatMap (lookupAdvice m),
      a.status = advisorSuccess ∨ a.status = advisorWarn ∨
        a.status = advisorError := by
    intro a ha
    rw [List.mem_flatMap] at ha
    obtain ⟨f, _, haf⟩ := ha
    obtain ⟨p, hp, hap⟩ := lookupAdvice_mem m f a haf
    exact htri p hp a hap
  refine ⟨?_, ?_, ?_, ?_, ?_, ?_⟩
  · unfold convertSQLAdviceToGitLabCIResult
    simp only []
    rw [gitlabFiles_status m (sortStrings (adviceKeys m)) [] advisorSuccess]
    rw [statusFold_gitlab _ advisorSuccess (Or.inl rfl) htri']
    unfold maxSeverity allAdvicesSorted
    simp
  · unfold convertSQLAdiceToGitHubActionResult
    simp only []
    rw [githubFiles_status m (sortStrings (adviceKeys m)) [] advisorSuccess]
    rw [statusFold_github _ advisorSuccess (Or.inl rfl) htri']
    unfold maxSeverity allAdvicesSorted
    simp
  · unfold convertSQLAdviceToGitLabCIResult
    simp only []
    rw [gitlabFiles_content m (sortStrings (adviceKeys m)) [] advisorSuccess]
    simp
  · unfold convertSQLAdiceToGitHubActionResult
    simp only []
    rw [githubFiles_content m (sortStrings (adviceKeys m)) [] advisorSuccess]
    simp
  · unfold sortStrings
    exact List.sorted_insertionSort _ _
  · unfold sortStrings
    exact List.perm_insertionSort _ _

/-- **C6** counterexample to the claimed "most severe status seen across all
files' advices": a single advice with status ERROR but code 0 is skipped by
both formatters' aggregation, which report SUCCESS although an ERROR-status
advice is present in the map. -/
theorem c6_counterexample :
    (convertSQLAdviceToGitLabCIResult
      [("a.sql", [⟨advisorError, 0, "t", "c", 1⟩])]).status = advisorSuccess ∧
    (convertSQLAdiceToGitHubActionResult
      [("a.sql", [⟨advisorError, 0, "t", "c", 1⟩])]).status = advisorSuccess ∧
    (∃ a ∈ ([("a.sql", [(⟨advisorError, 0, "t", "c", 1⟩ : Advice)])].flatMap
      Prod.snd), a.status = advisorError) ∧
    advisorSuccess ≠ advisorError := by decide

/-- Witness for **C6**: the tri-status hypothesis holds at a concrete
one-file map, on which the theorem applies. -/
theorem c6_witness :
    (∀ p ∈ [("a.sql", [(⟨advisorWarn, 5, "t", "c", 2⟩ : Advice)])], ∀ a ∈ p.2,
      a.status = advisorSuccess ∨ a.status = advisorWarn ∨
        a.status = advisorError) ∧
    ((convertSQLAdviceToGitLabCIResult
        [("a.sql", [⟨advisorWarn, 5, "t", "c", 2⟩])]).status =
      maxSeverity (allAdvicesSorted
        [("a.sql", [⟨advisorWarn, 5, "t", "c", 2⟩])]) ∧
    (convertSQLAdiceToGitHubActionResult
        [("a.sql", [⟨advisorWarn, 5, "t", "c", 2⟩])]).status =
      maxSeverity (allAdvicesSorted
        [("a.sql", [⟨advisorWarn, 5, "t", "c", 2⟩])]) ∧
    (convertSQLAdviceToGitLabCIResult
        [("a.sql", [⟨advisorWarn, 5, "t", "c", 2⟩])]).content =
      ["<?xml version=\"1.0\" encoding=\"UTF-8\"?>\n<testsuites name=\"SQL Review\">\n" ++
        goJoin ((sortStrings (adviceKeys
            [("a.sql", [⟨advisorWarn, 5, "t", "c", 2⟩])])).filterMap
          (gitlabSuiteFor [("a.sql", [⟨advisorWarn, 5, "t", "c", 2⟩])])) "\n" ++
        "\n</testsuites>"] ∧
    (convertSQLAdiceToGitHubActionResult
        [("a.sql", [⟨advisorWarn, 5, "t", "c", 2⟩])]).content =
      (sortStrings (adviceKeys
          [("a.sql", [⟨advisorWarn, 5, "t", "c", 2⟩])])).flatMap
        (githubMessagesFor [("a.sql", [⟨advisorWarn, 5, "t", "c", 2⟩])]) ∧
    List.Sorted (· ≤ ·) (sortStrings (adviceKeys
      [("a.sql", [⟨advisorWarn, 5, "t", "c", 2⟩])])) ∧
    List.Perm (sortStrings (adviceKeys
        [("a.sql", [⟨advisorWarn, 5, "t", "c", 2⟩])]))
      (adviceKeys [("a.sql", [⟨advisorWarn, 5, "t", "c", 2⟩])])) :=
  ⟨by decide, c6_formatters _ (by decide)⟩

/-- Helper: `strings.TrimPrefix` removes an appended lead exactly. -/
theorem goTrimPre_of_append (pre s : String) :
    goTrimPre (pre ++ s) pre = s := by
  unfold goTrimPre
  rw [if_pos]
  · rw [String.data_append, List.drop_left]
  · rw [String.data_append, List.isPrefixOf_iff_prefix]
    exact List.prefix_append pre.data s.data

/-- Helper: the hex digit table never produces the letter `s`. -/
theorem hexDigit_ne (n : Nat) : hexDigit n ≠ 's' := by
  unfold hexDigit
  split <;> decide

/-- Helper: a hex-encoded digest never starts with `sha256=`, so
`strings.TrimPrefix` leaves it unchanged. -/
theorem trimPre_hexEncode (bytes : List Nat) :
    goTrimPre (hexEncode bytes) "sha256=" = hexEncode bytes := by
  cases bytes with
  | nil => decide
  | cons b rest =>
    unfold goTrimPre
    rw [if_neg]
    intro hp
    rw [List.isPrefixOf_iff_prefix] at hp
    obtain ⟨t, ht⟩ := hp
    have hpre : "sha256=".data = 's' :: "ha256=".data := rfl
    rw [hpre, List.cons_append] at ht
    have h2 : (hexEncode (b :: rest)).data =
        hexDigit ((b >>> 4) % 16) :: hexDigit (b % 16) ::
          rest.flatMap
            (fun b => [hexDigit ((b >>> 4) % 16), hexDigit (b % 16)]) := rfl
    rw [h2] at ht
    injection ht with h1 h2
    exact hexDigit_ne _ h1.symm

/-- **C8**.  GitHub webhook signature validation succeeds exactly when the
hex-encoded HMAC-SHA256 digest of the body under the key equals the header
with any `sha256=` lead stripped; in particular both the bare digest and the
`sha256=`-prefixed digest validate, and against a fixed valid signature a
changed body whose digest differs (which the witness checks for a concrete
byte flip; in full generality digest distinctness is HMAC-SHA256 collision
resistance, which no program text can prove) fails validation. -/
theorem c8_signature_validation :
    (∀ (signature key : String) (body : List Nat),
      validateGitHubWebhookSignature256 signature key body = true ↔
        goTrimPre signature "sha256=" =
          hexEncode (hmacSHA256 (strBytes key) body)) ∧
    (∀ (key : String) (body : List Nat),
      validateGitHubWebhookSignature256
        ("sha256=" ++ hexEncode (hmacSHA256 (strBytes key) body)) key body =
        true) ∧
    (∀ (key : String) (body : List Nat),
      validateGitHubWebhookSignature256
        (hexEncode (hmacSHA256 (strBytes key) body)) key body = true) ∧
    (∀ (key : String) (body body' : List Nat),
      hexEncode (hmacSHA256 (strBytes key) body') ≠
        hexEncode (hmacSHA256 (strBytes key) body) →
      validateGitHubWebhookSignature256
        ("sha256=" ++ hexEncode (hmacSHA256 (strBytes key) body)) key body' =
        false) := by
  refine ⟨?_, ?_, ?_, ?_⟩
  · intro signature key body
    unfold validateGitHubWebhookSignature256
    simp
  · intro key body
    unfold validateGitHubWebhookSignature256
    rw [goTrimPre_of_append]
    simp
  · intro key body
    unfold validateGitHubWebhookSignature256
    rw [trimPre_hexEncode]
    simp
  · intro key body body' hne
    unfold validateGitHubWebhookSignature256
    rw [goTrimPre_of_append, beq_eq_false_iff_ne]
    exact Ne.symm hne

set_option maxRecDepth 100000 in
set_option maxHeartbeats 2000000 in
/-- Witness for **C8**: flipping the first byte of the concrete body
`[1, 2, 3]` changes the digest under key `key`, and the flipped body fails
validation against the original signature header. -/
theorem c8_witness :
    (hexEncode (hmacSHA256 (strBytes "key") (flipByte [1, 2, 3] 0)) ≠
      hexEncode (hmacSHA256 (strBytes "key") [1, 2, 3])) ∧
    validateGitHubWebhookSignature256
      ("sha256=" ++ hexEncode (hmacSHA256 (strBytes "key") [1, 2, 3]))
      "key" (flipByte [1, 2, 3] 0) = false :=
  ⟨by decide, c8_signature_validation.2.2.2 "key" [1, 2, 3]
    (flipByte [1, 2, 3] 0) (by decide)⟩

/-- Helper: on a pattern free of `*` and `\`, the chunk scan copies the
whole pattern. -/
theorem scanChunkCore_lit :
    ∀ (p : List Char), (∀ c ∈ p, c ≠ '*' ∧ c ≠ '\\') →
      ∀ (inRange : Bool), scanChunkCore inRange p = (p, []) := by
  intro p
  induction p with
  | nil => intro _ inRange; rfl
  | cons c rest ih =>
    intro h inRange
    have hc := h c (by simp)
    have hrest : ∀ x ∈ rest, x ≠ '*' ∧ x ≠ '\\' :=
      fun x hx => h x (by simp [hx])
    unfold scanChunkCore
    rw [if_neg hc.2]
    by_cases h1 : c = '['
    · rw [if_pos h1, ih hrest true]
    · rw [if_neg h1]
      by_cases h2 : c = ']'
      · rw [if_pos h2, ih hrest false]
      · rw [if_neg h2, if_neg (by simp [hc.1]), ih hrest inRange]

/-- Helper: on a pattern free of `*` and `\`, `scanChunk` returns the whole
pattern as the single chunk, with no star and no remainder. -/
theorem scanChunk_lit (p : List Char) (h : ∀ c ∈ p, c ≠ '*' ∧ c ≠ '\\') :
    scanChunk p = (false, p, []) := by
  unfold scanChunk
  cases p with
  | nil => rfl
  | cons c rest =>
    have hc := h c (by simp)
    rw [List.dropWhile_cons, if_neg (by simp [hc.1])]
    rw [scanChunkCore_lit (c :: rest) h false]
    simp [hc.1]

/-- Helper: on a chunk free of `[`, `?` and `\`, `matchChunk` is literal
matching: with `failed` already set it reports failure after the scan, and
otherwise it succeeds exactly on a prefix of the name, consuming it. -/
theorem matchChunk_lit :
    ∀ (chunk : List Char), (∀ c ∈ chunk, c ≠ '[' ∧ c ≠ '?' ∧ c ≠ '\\') →
      ∀ (s : List Char) (failed : Bool),
        matchChunk chunk s failed =
          (if failed = true then .ok ([], false)
          else if chunk.isPrefixOf s then .ok (s.drop chunk.length, true)
          else .ok ([], false)) := by
  intro chunk
  induction chunk with
  | nil =>
    intro _ s failed
    cases failed <;> simp [matchChunk, matchChunkF, List.isPrefixOf]
  | cons c rest ih =>
    intro h s failed
    have hc := h c (by simp)
    have hrest : ∀ x ∈ rest, x ≠ '[' ∧ x ≠ '?' ∧ x ≠ '\\' :=
      fun x hx => h x (by simp [hx])
    show matchChunkF (rest.length + 1) (c :: rest) s failed = _
    unfold matchChunkF
    rw [if_neg hc.1, if_neg hc.2.1, if_neg hc.2.2]
    cases failed with
    | true =>
      have hend : matchChunkF rest.length rest s true = .ok ([], false) := by
        have := ih hrest s true
        simpa [matchChunk] using this
      simp [hend]
    | false =>
      cases s with
      | nil =>
        have hend : matchChunkF rest.length rest [] true = .ok ([], false) := by
          have := ih hrest [] true
          simpa [matchChunk] using this
        simp [hend, List.isPrefixOf]
      | cons x xs =>
        by_cases hx : c = x
        · have hmid : matchChunkF rest.length rest xs false =
              (if rest.isPrefixOf xs then
                Except.ok (xs.drop rest.length, true)
              else Except.ok ([], false)) := by
            have := ih hrest xs false
            simpa [matchChunk] using this
          simp [hx, hmid, List.isPrefixOf]
        · have hend : matchChunkF rest.length rest xs true = .ok ([], false) := by
            have := ih hrest xs true
            simpa [matchChunk] using this
          simp [hx, hend, List.isPrefixOf]

/-- Helper: on a pattern free of all four metacharacters, the Go `Match`
loop at fuel at least 2 is literal equality of pattern and name. -/
theorem pathMatchGoF_lit (p name : List Char)
    (h : ∀ c ∈ p, c ≠ '*' ∧ c ≠ '?' ∧ c ≠ '[' ∧ c ≠ '\\') :
    ∀ fuel, 2 ≤ fuel → pathMatchGoF fuel p name = .ok (p == name) := by
  intro fuel hf
  obtain ⟨f, rfl⟩ : ∃ f, fuel = f + 2 := ⟨fuel - 2, by omega⟩
  cases p with
  | nil =>
    unfold pathMatchGoF
    cases name <;> simp [List.isEmpty]
  | cons p0 ps =>
    have hsc : scanChunk (p0 :: ps) = (false, p0 :: ps, []) :=
      scanChunk_lit _ (fun c hc => ⟨(h c hc).1, (h c hc).2.2.2⟩)
    have hmc := matchChunk_lit (p0 :: ps)
      (fun c hc => ⟨(h c hc).2.2.1, (h c hc).2.1, (h c hc).2.2.2⟩) name false
    have hmc2 : matchChunk (p0 :: ps) name false =
        (if (p0 :: ps).isPrefixOf name then
          Except.ok (name.drop (p0 :: ps).length, true)
        else Except.ok ([], false)) := by
      rw [hmc]; simp
    unfold pathMatchGoF
    simp only [hsc]
    rw [if_neg (by simp)]
    rw [hmc2]
    by_cases hpre : (p0 :: ps).isPrefixOf name = true
    · rw [if_pos hpre]
      simp only []
      rw [List.isPrefixOf_iff_prefix] at hpre
      obtain ⟨t, rfl⟩ := hpre
      rw [List.drop_left]
      by_cases ht : t = []
      · subst ht
        rw [if_pos (by simp)]
        unfold pathMatchGoF
        simp
      · rw [if_neg (by simp [ht])]
        rw [if_neg (by simp)]
        have hne : ((p0 :: ps) == (p0 :: ps) ++ t) = false := by
          rw [beq_eq_false_iff_ne]
          intro heq
          have h2 := congrArg List.length heq
          simp [List.length_append] at h2
          exact ht h2
        rw [hne]
        rfl
    · rw [if_neg hpre]
      simp only []
      rw [if_neg (by simp)]
      rw [if_neg (by simp)]
      have hne : ((p0 :: ps) == name) = false := by
        rw [beq_eq_false_iff_ne]
        intro heq
        apply hpre
        rw [heq, List.isPrefixOf_iff_prefix]
      rw [hne]
      rfl

/-- Helper: `filepath.Match` on a metacharacter-free pattern is literal
equality. -/
theorem pathMatchGo_lit (p name : List Char)
    (h : ∀ c ∈ p, c ≠ '*' ∧ c ≠ '?' ∧ c ≠ '[' ∧ c ≠ '\\') :
    pathMatchGo p name = .ok (p == name) := by
  unfold pathMatchGo
  apply pathMatchGoF_lit p name h
  have h1 : 1 ≤ p.length + 1 := by omega
  have h2 : 2 ≤ name.length + 2 := by omega
  have h3 := Nat.mul_le_mul h1 h2
  simpa using h3

/-- Helper: stripping `refs/heads/` from a ref built over a nonempty branch
recovers the branch. -/
theorem parseBranch_append (branch : String) (h : branch ≠ "") :
    parseBranchNameFromRefs ("refs/heads/" ++ branch) = .ok branch := by
  have hbl : 0 < branch.length := by
    rcases branch with ⟨d⟩
    cases d with
    | nil => exact absurd rfl h
    | cons c cs => simp [String.length]
  unfold parseBranchNameFromRefs
  rw [if_neg]
  · rw [String.data_append, List.drop_left]
  · push_neg
    refine ⟨?_, ?_⟩
    · have hp : goHasPre ("refs/heads/" ++ branch) "refs/heads/" = true := by
        unfold goHasPre
        rw [String.data_append, List.isPrefixOf_iff_prefix]
        exact List.prefix_append _ _
      simp [hp]
    · have hlen : ("refs/heads/" ++ branch).length =
          "refs/heads/".length + branch.length := by
        rw [show ("refs/heads/" ++ branch).length =
          ("refs/heads/" ++ branch).data.length from rfl, String.data_append,
          List.length_append]
        rfl
      rw [hlen]
      omega

/-- **C4** (corrected).  For a pushed ref `refs/heads/<branch>` with a
nonempty branch: when the filter contains NONE of the four `filepath.Match`
metacharacters `*`, `?`, `[`, `\` the webhook branch check returns true
exactly when the branch equals the filter character for character — a
`*`-free filter alone is not enough, since `?`, ranges and escapes also
match non-identical branches (see the counterexample) — and with `*` the
shell-glob behaviour is as claimed: `release/*` matches `release/1.0` and
does not match `release`. -/
theorem c4_branch_filter (branch filter : String)
    (hbr : branch ≠ "")
    (hfil : ∀ c ∈ filter.data, c ≠ '*' ∧ c ≠ '?' ∧ c ≠ '[' ∧ c ≠ '\\') :
    isWebhookEventBranch ("refs/heads/" ++ branch) filter =
      .ok (decide (branch = filter)) ∧
    isWebhookEventBranch "refs/heads/release/1.0" "release/*" = .ok true ∧
    isWebhookEventBranch "refs/heads/release" "release/*" = .ok false := by
  refine ⟨?_, by decide, by decide⟩
  unfold isWebhookEventBranch
  rw [parseBranch_append branch hbr]
  simp only []
  unfold pathMatch
  rw [pathMatchGo_lit filter.data branch.data hfil]
  simp only []
  congr 1
  by_cases hd : filter.data = branch.data
  · have hs : branch = filter := by
      rcases branch with ⟨d1⟩
      rcases filter with ⟨d2⟩
      exact congrArg String.mk hd.symm
    simp [hd, hs]
  · have hs : branch ≠ filter := by
      intro he
      subst he
      exact hd rfl
    simp [hd, hs]

/-- **C4** counterexample to the claimed `*`-free equivalence: the filter
`mai?` contains no `*`, yet the branch `main` — not equal to the filter —
is accepted, because `?` matches any non-separator character. -/
theorem c4_counterexample :
    ("mai?".data.contains '*') = false ∧
    isWebhookEventBranch "refs/heads/main" "mai?" = .ok true ∧
    "main" ≠ "mai?" := by decide

/-- Witness for **C4**: the branch `main` is nonempty and the filter `main`
is metacharacter-free, and the theorem applies. -/
theorem c4_witness :
    (("main" : String) ≠ "" ∧
      ∀ c ∈ "main".data, c ≠ '*' ∧ c ≠ '?' ∧ c ≠ '[' ∧ c ≠ '\\') ∧
    (isWebhookEventBranch ("refs/heads/" ++ "main") "main" =
      .ok (decide (("main" : String) = "main")) ∧
    isWebhookEventBranch "refs/heads/release/1.0" "release/*" = .ok true ∧
    isWebhookEventBranch "refs/heads/release" "release/*" = .ok false) :=
  ⟨⟨by decide, by decide⟩,
    c4_branch_filter "main" "main" (by decide) (by decide)⟩
